import Mathlib

/-!
Verification development for the openclaw command-queue subsystem.

The repository ships `src/process/lanes.ts` (the lane-name enumeration) and
`src/process/command-queue.test.ts` (the test suite).  The implementation file
`src/process/command-queue.ts` is not part of the sources, so the scheduler
itself is modelled from the specification (spec.md, sections 3-7): a lane
registry, the admission pump, generation-tagged completion bookkeeping,
clearing, global reset, drain observation and the size queries.  Each
definition below that stands in for the missing implementation carries a doc
comment starting with "Modelled from the spec:".

The scheduling model is single-threaded and cooperative (spec section 5): all
registry mutations are synchronous atomic steps, and the only nondeterminism
is when a dispatched operation settles and whether it succeeds or fails.  We
therefore embed the system as a deterministic transition function over an
explicit operation alphabet `Op`; the environment's choices (settlement
instants, failures, the passage of time) are part of the operation word.
-/

namespace CommandQueue

/-- The lane-name enumeration, from `src/process/lanes.ts`. -/
inductive CommandLane where
  | main
  | cron
  | subagent
  | nested
  | heartbeat
deriving DecidableEq, Repr

/-- The string key of a lane-name constant, from `src/process/lanes.ts`. -/
def CommandLane.key : CommandLane → String
  | .main => "main"
  | .cron => "cron"
  | .subagent => "subagent"
  | .nested => "nested"
  | .heartbeat => "heartbeat"

/-- Modelled from the spec: the distinguished default lane key ("main"). -/
def mainLane : String := "main"

/-- Modelled from the spec: a Task Envelope (spec section 3) as created at
enqueue time: a caller-visible identifier standing for the outcome channel,
the enqueue timestamp, the `aheadCount` captured at enqueue (number of other
envelopes already pending in the lane), and the optional `warnAfterMs`
threshold of the wait diagnostic. -/
structure TaskEnvelope where
  id : Nat
  enqueuedAt : Nat
  aheadCount : Nat
  warnAfterMs : Option Nat
deriving DecidableEq, Repr

/-- Modelled from the spec: the in-flight bookkeeping record of a dispatched
task: its envelope id, its lane, and the lane generation captured at
dispatch. -/
structure RunningTask where
  id : Nat
  lane : String
  generation : Nat
deriving DecidableEq, Repr

/-- Modelled from the spec: the kind of a settled outcome.  The lane-cleared
kind (`CommandLaneClearedError` in the tests) is a distinct constructor,
distinguishable by kind from an operation failure. -/
inductive Outcome where
  | resolvedOk
  | rejectedOpFailure
  | rejectedLaneCleared
deriving DecidableEq, Repr

/-- Modelled from the spec: a delivered outcome record: envelope id, the lane
it belonged to, and the outcome kind. -/
structure SettledRec where
  id : Nat
  lane : String
  outcome : Outcome
deriving DecidableEq, Repr

/-- Modelled from the spec: one `onWait(waitedMs, aheadCount)` invocation,
recorded at dispatch. -/
structure WaitNotice where
  id : Nat
  waitedMs : Nat
  aheadCount : Nat
deriving DecidableEq, Repr

/-- Modelled from the spec: the mutable record of one lane (spec section 3):
concurrency ceiling, generation counter, active count and the ordered pending
queue. -/
structure LaneState where
  concurrency : Nat
  generation : Nat
  active : Nat
  pending : List TaskEnvelope
deriving DecidableEq, Repr

/-- Modelled from the spec: the state of a newly-seen lane: concurrency 1,
generation 0, nothing active, nothing pending. -/
def defaultLane : LaneState :=
  { concurrency := 1, generation := 0, active := 0, pending := [] }

/-- Modelled from the spec: the whole scheduler state: the lane registry (an
insertion-ordered association list, keys distinct), the in-flight tasks, the
settled-outcome log, the emitted wait notices, the enqueue and dispatch logs
used to observe ordering, the fresh-id counter for envelopes, and the clock. -/
structure QState where
  lanes : List (String × LaneState)
  running : List RunningTask
  settled : List SettledRec
  notices : List WaitNotice
  enqueueLog : List (String × Nat)
  dispatchLog : List (String × Nat)
  nextId : Nat
  now : Nat
deriving DecidableEq, Repr

/-- Association-list lookup in the lane registry (first match). -/
def lanesLookup : List (String × LaneState) → String → Option LaneState
  | [], _ => none
  | (k, v) :: rest, key => if k = key then some v else lanesLookup rest key

/-- Association-list update in the lane registry: replaces the first binding
of the key, or appends a new binding when the key is absent (lanes are created
on first reference and never removed, spec section 3). -/
def lanesUpdate : List (String × LaneState) → String → LaneState → List (String × LaneState)
  | [], key, v => [(key, v)]
  | (k, w) :: rest, key, v =>
      if k = key then (key, v) :: rest else (k, w) :: lanesUpdate rest key v

/-- The lane state observed for a key: the registry entry, or the default
state for a lane not yet created. -/
def getLaneState (s : QState) (lane : String) : LaneState :=
  (lanesLookup s.lanes lane).getD defaultLane

/-- Modelled from the spec: the wait diagnostic fired at dispatch (spec
section 4.1): when the envelope carries `warnAfterMs` and the elapsed wait
(dispatch time minus enqueue time) is at least the threshold, `onWait` is
invoked with the waited time and the `aheadCount` captured at enqueue. -/
def noticeFor (now : Nat) (e : TaskEnvelope) : Option WaitNotice :=
  match e.warnAfterMs with
  | some w =>
      if w ≤ now - e.enqueuedAt then
        some { id := e.id, waitedMs := now - e.enqueuedAt, aheadCount := e.aheadCount }
      else none
  | none => none

/-- Modelled from the spec: the admission loop of `pump` (spec section 4.1):
while the active count is below the concurrency ceiling and the pending queue
is non-empty, remove the head envelope and dispatch it.  Returns the new
active count, the remaining pending queue, and the dispatched envelopes in
dispatch order. -/
def pumpGo (conc : Nat) : Nat → List TaskEnvelope → Nat × List TaskEnvelope × List TaskEnvelope
  | a, [] => (a, [], [])
  | a, e :: rest =>
      if a < conc then
        let r := pumpGo conc (a + 1) rest
        (r.1, r.2.1, e :: r.2.2)
      else (a, e :: rest, [])

/-- Modelled from the spec: `pump(lane)` (spec section 4.1): dispatch leading
pending envelopes while capacity remains; each dispatched envelope increments
`active`, captures the lane's current generation, is logged in dispatch order,
and fires its wait diagnostic when the threshold is met.  A no-op on a lane
that does not exist. -/
def pumpLane (s : QState) (lane : String) : QState :=
  match lanesLookup s.lanes lane with
  | none => s
  | some st =>
      let r := pumpGo st.concurrency st.active st.pending
      let disp := r.2.2
      { s with
        lanes := lanesUpdate s.lanes lane { st with active := r.1, pending := r.2.1 },
        running := s.running ++ disp.map (fun e => { id := e.id, lane := lane, generation := st.generation }),
        notices := s.notices ++ disp.filterMap (noticeFor s.now),
        dispatchLog := s.dispatchLog ++ disp.map (fun e => (lane, e.id)) }

/-- Modelled from the spec: the Task Envelope created at enqueue time (spec
section 3): a fresh id, the enqueue timestamp, the `aheadCount` captured as
the number of other envelopes already pending in the lane at this moment
(active or dispatched entries do not count), and the optional `warnAfterMs`
threshold. -/
def mkEnvelope (s : QState) (lane : String) (warnAfterMs : Option Nat) : TaskEnvelope :=
  { id := s.nextId, enqueuedAt := s.now,
    aheadCount := (getLaneState s lane).pending.length, warnAfterMs := warnAfterMs }

/-- Modelled from the spec: `enqueueCommandInLane` (spec section 4.2): create
a Task Envelope whose `aheadCount` is the number of envelopes already pending
in the lane, append it to the lane's pending queue (creating the lane on first
reference), log the enqueue, pump the lane, and hand the caller the envelope
id (the outcome channel). -/
def enqueueCommandInLane (s : QState) (lane : String) (warnAfterMs : Option Nat) : QState × Nat :=
  let st := getLaneState s lane
  let env : TaskEnvelope := mkEnvelope s lane warnAfterMs
  let s' : QState :=
    { s with
      lanes := lanesUpdate s.lanes lane { st with pending := st.pending ++ [env] },
      enqueueLog := s.enqueueLog ++ [(lane, env.id)],
      nextId := s.nextId + 1 }
  (pumpLane s' lane, env.id)

/-- Modelled from the spec: `enqueueCommand` is `enqueueCommandInLane` on the
default "main" lane (spec section 4.2). -/
def enqueueCommand (s : QState) (warnAfterMs : Option Nat) : QState × Nat :=
  enqueueCommandInLane s mainLane warnAfterMs

/-- Modelled from the spec: the completion handler (spec section 4.1): when a
dispatched operation settles, deliver the outcome to the caller, then compare
the captured generation with the lane's current generation; on a match,
decrement `active` and pump the lane again; on a mismatch (the lane was reset
since dispatch) perform no further bookkeeping.  A settlement for an unknown
task id is an internal anomaly: logged and swallowed (spec section 7). -/
def settleTask (s : QState) (id : Nat) (out : Outcome) : QState :=
  match s.running.find? (fun r => r.id == id) with
  | none => s
  | some r =>
      let s1 : QState :=
        { s with
          running := s.running.filter (fun q => q.id != id),
          settled := s.settled ++ [{ id := r.id, lane := r.lane, outcome := out }] }
      match lanesLookup s1.lanes r.lane with
      | none => s1
      | some st =>
          if r.generation = st.generation then
            pumpLane { s1 with lanes := lanesUpdate s1.lanes r.lane { st with active := st.active - 1 } } r.lane
          else s1

/-- Modelled from the spec: `clearCommandLane` (spec section 4.3): remove
every pending envelope from the lane, rejecting each with the lane-cleared
error kind, and return the count removed.  Active envelopes and the lane's
generation are untouched. -/
def clearCommandLane (s : QState) (lane : String) : QState × Nat :=
  match lanesLookup s.lanes lane with
  | none => (s, 0)
  | some st =>
      ( { s with
          lanes := lanesUpdate s.lanes lane { st with pending := [] },
          settled := s.settled ++
            st.pending.map (fun e => { id := e.id, lane := lane, outcome := Outcome.rejectedLaneCleared }) },
        st.pending.length )

/-- Modelled from the spec: the per-lane effect of the global reset (spec
section 4.4): force `active` to zero and increment `generation` by one; the
pending queue and the concurrency ceiling are untouched. -/
def resetLane (st : LaneState) : LaneState :=
  { st with active := 0, generation := st.generation + 1 }

/-- Modelled from the spec: `resetAllLanes` (spec section 4.4): for every
known lane set `active = 0` and increment `generation` by one, then pump each
lane.  The pending queues are not touched or rejected. -/
def resetAllLanes (s : QState) : QState :=
  let s' : QState := { s with lanes := s.lanes.map (fun p => (p.1, resetLane p.2)) }
  (s'.lanes.map Prod.fst).foldl pumpLane s'

/-- Modelled from the spec: the configuration-error kind reported by
`setCommandLaneConcurrency` for an invalid ceiling (spec section 7c). -/
inductive ConfigError where
  | invalidConcurrency
deriving DecidableEq, Repr

/-- Modelled from the spec: `setCommandLaneConcurrency` (spec section 4.2):
a ceiling of at least 1 is stored (creating the lane on first reference) and
the lane is pumped immediately; a non-positive ceiling is rejected with a
configuration error reported synchronously, the state left unchanged. -/
def setCommandLaneConcurrency (s : QState) (lane : String) (n : Nat) : QState × Option ConfigError :=
  if n = 0 then (s, some ConfigError.invalidConcurrency)
  else
    let st := getLaneState s lane
    (pumpLane { s with lanes := lanesUpdate s.lanes lane { st with concurrency := n } } lane, none)

/-- Modelled from the spec: `getQueueSize(lane)` = active plus pending length
of that lane (spec section 4.6). -/
def getQueueSize (s : QState) (lane : String) : Nat :=
  (getLaneState s lane).active + (getLaneState s lane).pending.length

/-- Modelled from the spec: `getQueueSize()` with no argument uses the default
"main" lane. -/
def getQueueSizeMain (s : QState) : Nat :=
  getQueueSize s mainLane

/-- Modelled from the spec: `getTotalQueueSize()` sums active plus pending
over every known lane (spec section 4.6). -/
def getTotalQueueSize (s : QState) : Nat :=
  (s.lanes.map (fun p => p.2.active + p.2.pending.length)).sum

/-- Modelled from the spec: `getActiveTaskCount()` sums the active count over
every known lane (spec section 4.6). -/
def getActiveTaskCount (s : QState) : Nat :=
  (s.lanes.map (fun p => p.2.active)).sum

/-- Modelled from the spec: the snapshot taken by `waitForActiveTasks` at call
time: the outcome handles (ids) of every envelope currently active across all
lanes (spec section 4.5). -/
def activeSnapshot (s : QState) : List Nat :=
  s.running.map (fun r => r.id)

/-- Modelled from the spec: the drain race of `waitForActiveTasks(timeoutMs)`
(spec section 4.5): given the settlement instant of each snapshotted handle
(`none` when it does not settle within observation), the call resolves
`drained = true` exactly when every snapshotted outcome settles strictly
before the timeout elapses; an empty snapshot resolves immediately with
`drained = true`. -/
def waitForActiveTasks (snapshot : List Nat) (settleAt : Nat → Option Nat) (timeoutMs : Nat) : Bool :=
  snapshot.all (fun id =>
    match settleAt id with
    | some t => decide (t < timeoutMs)
    | none => false)

/-- Modelled from the spec: the operation alphabet of the cooperative
scheduling model (spec section 5): each constructor is one synchronous atomic
step; the environment chooses when a dispatched task settles and whether it
fails, and how the clock advances. -/
inductive Op where
  | enqueue (lane : String) (warnAfterMs : Option Nat)
  | settleOk (id : Nat)
  | settleErr (id : Nat)
  | clearLane (lane : String)
  | reset
  | setConcurrency (lane : String) (n : Nat)
  | tick (ms : Nat)
deriving DecidableEq, Repr

/-- Modelled from the spec: the transition function: one atomic scheduler
step per operation. -/
def applyOp (s : QState) : Op → QState
  | .enqueue lane w => (enqueueCommandInLane s lane w).1
  | .settleOk id => settleTask s id Outcome.resolvedOk
  | .settleErr id => settleTask s id Outcome.rejectedOpFailure
  | .clearLane lane => (clearCommandLane s lane).1
  | .reset => resetAllLanes s
  | .setConcurrency lane n => (setCommandLaneConcurrency s lane n).1
  | .tick ms => { s with now := s.now + ms }

/-- The initial scheduler state: empty registry, nothing running, epoch 0. -/
def initState : QState :=
  { lanes := [], running := [], settled := [], notices := [],
    enqueueLog := [], dispatchLog := [], nextId := 0, now := 0 }

/-- The state reached by a word of operations from the initial state. -/
def runOps (ops : List Op) : QState :=
  ops.foldl applyOp initState

/-- The registry has distinct lane keys (it is a map). -/
def keysNodup (s : QState) : Prop :=
  (s.lanes.map Prod.fst).Nodup

/-- The effect of one `pump` on a single lane's record: dispatch
`min (concurrency - active) |pending|` leading envelopes. -/
def pumpedLaneState (st : LaneState) : LaneState :=
  { st with
    active := st.active + min (st.concurrency - st.active) st.pending.length,
    pending := st.pending.drop (min (st.concurrency - st.active) st.pending.length) }

/-- The envelopes a `pump` of the lane dispatches, in dispatch order. -/
def dispatchedEnvs (s : QState) (lane : String) : List TaskEnvelope :=
  (getLaneState s lane).pending.take
    (min ((getLaneState s lane).concurrency - (getLaneState s lane).active)
      (getLaneState s lane).pending.length)

/-- The ids recorded against one lane in an (lane, id) log, in log order. -/
def keyedIds (log : List (String × Nat)) (L : String) : List Nat :=
  log.filterMap (fun p => if p.1 = L then some p.2 else none)

/-- The envelope ids enqueued into a lane, in submission order. -/
def laneEnqueued (s : QState) (L : String) : List Nat :=
  keyedIds s.enqueueLog L

/-- The envelope ids dispatched in a lane, in dispatch order. -/
def laneDispatched (s : QState) (L : String) : List Nat :=
  keyedIds s.dispatchLog L

/-- The envelope ids of a lane whose outcomes were delivered, in settlement
order. -/
def laneSettled (s : QState) (L : String) : List Nat :=
  s.settled.filterMap (fun r => if r.lane = L then some r.id else none)

/-- The envelope ids currently in flight in a lane, in dispatch order. -/
def laneRunning (s : QState) (L : String) : List Nat :=
  (s.running.filter (fun r => r.lane == L)).map (fun r => r.id)

/-- The envelope ids currently pending in a lane, in queue order. -/
def lanePending (s : QState) (L : String) : List Nat :=
  ((getLaneState s L).pending).map (fun e => e.id)

/-- The per-lane admission bound of spec section 3: every lane's active count
is at most its concurrency ceiling. -/
def AllLE (s : QState) : Prop :=
  ∀ l, (getLaneState s l).active ≤ (getLaneState s l).concurrency

/-- Holds of an operation applied in a state when it is not a
`setCommandLaneConcurrency` call lowering a lane's ceiling below its active
count (a rejected ceiling of zero never mutates the lane, so it counts as
safe). -/
def lowerGuard (s : QState) : Op → Bool
  | .setConcurrency l n => n == 0 || decide ((getLaneState s l).active ≤ n)
  | _ => true

/-- Holds of an operation word in which no `setCommandLaneConcurrency` call
lowers a lane's ceiling below its active count at the moment of the call (the
transient exception spec section 3 carves out of the `active ≤ concurrency`
invariant). -/
def noUnsafeLower : QState → List Op → Bool
  | _, [] => true
  | s, op :: rest => lowerGuard s op && noUnsafeLower (applyOp s op) rest

/-- Holds of operations that do not clear the given lane. -/
def noClearOf (L : String) : Op → Bool
  | .clearLane l => l != L
  | _ => true

/-- Holds of operations that leave the given lane in its plain serial regime:
no global reset, no clear of the lane, no concurrency change of the lane. -/
def serialOk (L : String) : Op → Bool
  | .reset => false
  | .clearLane l => l != L
  | .setConcurrency l _ => l != L
  | _ => true

/-- The serial-lane trace invariant for a lane left in its default
concurrency-1 regime: the submission order is exactly the settled order
followed by the in-flight task followed by the pending queue; the active
count matches the in-flight list and never exceeds one; generations stay at
zero (no resets); in-flight and pending ids of other lanes never collide with
the lane's own live ids; and all live ids are below the fresh-id counter. -/
def SerialInv (L : String) (s : QState) : Prop :=
  laneEnqueued s L = laneSettled s L ++ laneRunning s L ++ lanePending s L
  ∧ (getLaneState s L).active = (laneRunning s L).length
  ∧ (getLaneState s L).concurrency = 1
  ∧ (laneRunning s L).length ≤ 1
  ∧ (getLaneState s L).generation = 0
  ∧ (∀ q ∈ s.running, q.lane = L → q.generation = 0)
  ∧ (∀ q ∈ s.running, q.lane ≠ L → q.id ∉ laneRunning s L ∧ q.id ∉ lanePending s L)
  ∧ (∀ l, l ≠ L → ∀ i ∈ lanePending s l, i ∉ laneRunning s L ∧ i ∉ lanePending s L)
  ∧ (∀ q ∈ s.running, q.id < s.nextId)
  ∧ (∀ l, ∀ i ∈ lanePending s l, i < s.nextId)

/-- The FIFO dispatch invariant of a lane: the ids enqueued into the lane are
exactly the ids dispatched so far followed by the pending queue — dispatch
order is insertion order with no reordering. -/
def FifoInv (L : String) (s : QState) : Prop :=
  laneEnqueued s L = laneDispatched s L ++ lanePending s L

/-- The state right after an enqueue appends its envelope and logs it, before
the pump runs: `enqueueCommandInLane` is exactly a pump of this state. -/
def enqueueMid (s : QState) (lane : String) (w : Option Nat) : QState :=
  { s with
    lanes := lanesUpdate s.lanes lane
      { getLaneState s lane with
        pending := (getLaneState s lane).pending ++ [mkEnvelope s lane w] },
    enqueueLog := s.enqueueLog ++ [(lane, (mkEnvelope s lane w).id)],
    nextId := s.nextId + 1 }

/-- The state right after a settlement delivers its outcome and retires the
in-flight record, before any bookkeeping. -/
def settleFound (s : QState) (id : Nat) (r : RunningTask) (out : Outcome) : QState :=
  { s with
    running := s.running.filter (fun q => q.id != id),
    settled := s.settled ++ [{ id := r.id, lane := r.lane, outcome := out }] }

/-- The state right after a generation-matching settlement also decrements the
lane's active count, before the re-pump. -/
def settleBookMid (s : QState) (id : Nat) (r : RunningTask) (out : Outcome) (st : LaneState) :
    QState :=
  { settleFound s id r out with
    lanes := lanesUpdate s.lanes r.lane { st with active := st.active - 1 } }

/-- The state right after `clearCommandLane` empties the pending queue of a
known lane and rejects the evicted envelopes. -/
def clearMid (s : QState) (lane : String) (st : LaneState) : QState :=
  { s with
    lanes := lanesUpdate s.lanes lane { st with pending := [] },
    settled := s.settled ++ st.pending.map
      (fun e => { id := e.id, lane := lane, outcome := Outcome.rejectedLaneCleared }) }

/-- The state right after `setCommandLaneConcurrency` stores a valid ceiling,
before the pump. -/
def setConcMid (s : QState) (lane : String) (n : Nat) : QState :=
  { s with lanes := lanesUpdate s.lanes lane { getLaneState s lane with concurrency := n } }

/-- The state right after the global reset reconciles every lane, before the
per-lane pumps. -/
def resetMid (s : QState) : QState :=
  { s with lanes := s.lanes.map (fun p => (p.1, resetLane p.2)) }

/-- A concrete scheduler state used to exercise the wait diagnostic: lane "w"
is idle with one pending envelope that has waited 30ms against a 5ms
threshold. -/
def waitDemoState : QState :=
  { lanes := [("w", { concurrency := 1, generation := 0, active := 0,
                      pending := [{ id := 1, enqueuedAt := 0, aheadCount := 0,
                                    warnAfterMs := some 5 }] })],
    running := [], settled := [], notices := [],
    enqueueLog := [("w", 1)], dispatchLog := [], nextId := 2, now := 30 }

theorem lanesLookup_update_self (l : List (String × LaneState)) (k : String) (v : LaneState) :
    lanesLookup (lanesUpdate l k v) k = some v := by
  induction l with
  | nil => simp [lanesUpdate, lanesLookup]
  | cons p rest ih =>
    obtain ⟨k', w⟩ := p
    by_cases h : k' = k
    · simp [lanesUpdate, h, lanesLookup]
    · simp [lanesUpdate, h, lanesLookup, ih]

theorem lanesLookup_update_other (l : List (String × LaneState)) (k k' : String) (v : LaneState)
    (h : k' ≠ k) : lanesLookup (lanesUpdate l k v) k' = lanesLookup l k' := by
  induction l with
  | nil => simp [lanesUpdate, lanesLookup, Ne.symm h]
  | cons p rest ih =>
    obtain ⟨k'', w⟩ := p
    by_cases h2 : k'' = k
    · subst h2; simp [lanesUpdate, lanesLookup, Ne.symm h]
    · simp [lanesUpdate, h2, lanesLookup, ih]

theorem lanesLookup_map (l : List (String × LaneState)) (g : LaneState → LaneState) (k : String) :
    lanesLookup (l.map (fun p => (p.1, g p.2))) k = (lanesLookup l k).map g := by
  induction l with
  | nil => rfl
  | cons p rest ih =>
    by_cases h : p.1 = k <;> simp [lanesLookup, h, ih]

theorem lanesLookup_of_nodup (l : List (String × LaneState))
    (hnd : (l.map Prod.fst).Nodup) (p : String × LaneState) (hp : p ∈ l) :
    lanesLookup l p.1 = some p.2 := by
  induction l with
  | nil => cases hp
  | cons q rest ih =>
    rcases List.mem_cons.mp hp with h | h
    · subst h; simp [lanesLookup]
    · have hne : q.1 ≠ p.1 := by
        intro he
        have : p.1 ∈ rest.map Prod.fst := List.mem_map_of_mem Prod.fst h
        exact (List.nodup_cons.mp hnd).1 (he ▸ this)
      simp [lanesLookup, hne, ih (List.nodup_cons.mp hnd).2 h]

theorem lanesUpdate_keys_mem (l : List (String × LaneState)) (k : String) (v : LaneState)
    (h : k ∈ l.map Prod.fst) : (lanesUpdate l k v).map Prod.fst = l.map Prod.fst := by
  induction l with
  | nil => cases h
  | cons p rest ih =>
    by_cases h2 : p.1 = k
    · obtain ⟨k', w⟩ := p; simp at h2; subst h2; simp [lanesUpdate]
    · obtain ⟨k', w⟩ := p
      simp at h2
      rcases List.mem_cons.mp h with he | he
      · simp at he; exact absurd he.symm h2
      · simp [lanesUpdate, h2, ih he]

theorem sum_map_update (l : List (String × LaneState)) (k : String) (v : LaneState)
    (f : String × LaneState → Nat) :
    ((lanesUpdate l k v).map f).sum +
      (match lanesLookup l k with
       | some w => f (k, w)
       | none => 0)
      = (l.map f).sum + f (k, v) := by
  induction l with
  | nil => simp [lanesUpdate, lanesLookup]
  | cons p rest ih =>
    obtain ⟨k', w⟩ := p
    by_cases h : k' = k
    · subst h; simp [lanesUpdate, lanesLookup]; omega
    · cases hl : lanesLookup rest k with
      | none =>
          simp [lanesUpdate, lanesLookup, h, hl] at ih ⊢
          omega
      | some u =>
          simp [lanesUpdate, lanesLookup, h, hl] at ih ⊢
          omega

theorem pumpGo_eq (conc : Nat) (p : List TaskEnvelope) : ∀ a,
    pumpGo conc a p =
      (a + min (conc - a) p.length,
        p.drop (min (conc - a) p.length),
        p.take (min (conc - a) p.length)) := by
  induction p with
  | nil => intro a; simp [pumpGo]
  | cons e rest ih =>
    intro a
    by_cases h : a < conc
    · have hm : min (conc - a) (rest.length + 1) = min (conc - (a + 1)) rest.length + 1 := by
        omega
      simp only [pumpGo, if_pos h, ih (a + 1), List.length_cons, hm, List.drop_succ_cons,
        List.take_succ_cons]
      congr 1
      omega
    · have h0 : conc - a = 0 := by omega
      simp [pumpGo, h, h0]

theorem pumpLane_lanes (s : QState) (lane l' : String) :
    lanesLookup (pumpLane s lane).lanes l' =
      if l' = lane then (lanesLookup s.lanes lane).map pumpedLaneState
      else lanesLookup s.lanes l' := by
  cases h : lanesLookup s.lanes lane with
  | none => by_cases h' : l' = lane <;> simp [pumpLane, h, h']
  | some st =>
    by_cases h' : l' = lane
    · subst h'
      simp [pumpLane, h, pumpGo_eq, lanesLookup_update_self, pumpedLaneState]
    · simp [pumpLane, h, lanesLookup_update_other _ _ _ _ h', h']

theorem getLaneState_pumpLane_self (s : QState) (lane : String) :
    getLaneState (pumpLane s lane) lane = pumpedLaneState (getLaneState s lane) := by
  unfold getLaneState
  rw [pumpLane_lanes]
  simp only [if_pos rfl]
  cases lanesLookup s.lanes lane with
  | none => simp [pumpedLaneState, defaultLane]
  | some st => simp

theorem getLaneState_pumpLane_other (s : QState) (lane l' : String) (h : l' ≠ lane) :
    getLaneState (pumpLane s lane) l' = getLaneState s l' := by
  unfold getLaneState
  rw [pumpLane_lanes]
  simp [h]

theorem pumpLane_running (s : QState) (lane : String) :
    (pumpLane s lane).running =
      s.running ++ (dispatchedEnvs s lane).map
        (fun e => { id := e.id, lane := lane, generation := (getLaneState s lane).generation }) := by
  cases h : lanesLookup s.lanes lane with
  | none => simp [pumpLane, h, dispatchedEnvs, getLaneState, defaultLane]
  | some st => simp [pumpLane, h, dispatchedEnvs, getLaneState, pumpGo_eq]

theorem pumpLane_notices (s : QState) (lane : String) :
    (pumpLane s lane).notices = s.notices ++ (dispatchedEnvs s lane).filterMap (noticeFor s.now) := by
  cases h : lanesLookup s.lanes lane with
  | none => simp [pumpLane, h, dispatchedEnvs, getLaneState, defaultLane]
  | some st => simp [pumpLane, h, dispatchedEnvs, getLaneState, pumpGo_eq]

theorem pumpLane_dispatchLog (s : QState) (lane : String) :
    (pumpLane s lane).dispatchLog =
      s.dispatchLog ++ (dispatchedEnvs s lane).map (fun e => (lane, e.id)) := by
  cases h : lanesLookup s.lanes lane with
  | none => simp [pumpLane, h, dispatchedEnvs, getLaneState, defaultLane]
  | some st => simp [pumpLane, h, dispatchedEnvs, getLaneState, pumpGo_eq]

theorem pumpLane_settled (s : QState) (lane : String) :
    (pumpLane s lane).settled = s.settled := by
  cases h : lanesLookup s.lanes lane with
  | none => simp [pumpLane, h]
  | some st => simp [pumpLane, h]

theorem pumpLane_enqueueLog (s : QState) (lane : String) :
    (pumpLane s lane).enqueueLog = s.enqueueLog := by
  cases h : lanesLookup s.lanes lane with
  | none => simp [pumpLane, h]
  | some st => simp [pumpLane, h]

theorem pumpLane_nextId (s : QState) (lane : String) :
    (pumpLane s lane).nextId = s.nextId := by
  cases h : lanesLookup s.lanes lane with
  | none => simp [pumpLane, h]
  | some st => simp [pumpLane, h]

theorem pumpLane_now (s : QState) (lane : String) :
    (pumpLane s lane).now = s.now := by
  cases h : lanesLookup s.lanes lane with
  | none => simp [pumpLane, h]
  | some st => simp [pumpLane, h]

theorem keyedIds_append (log₁ log₂ : List (String × Nat)) (L : String) :
    keyedIds (log₁ ++ log₂) L = keyedIds log₁ L ++ keyedIds log₂ L := by
  simp [keyedIds, List.filterMap_append]

theorem keyedIds_single (l : String) (i : Nat) (L : String) :
    keyedIds [(l, i)] L = if l = L then [i] else [] := by
  by_cases h : l = L <;> simp [keyedIds, h]

theorem keyedIds_map_const (disp : List TaskEnvelope) (lane L : String) :
    keyedIds (disp.map (fun e => (lane, e.id))) L =
      if lane = L then disp.map (fun e => e.id) else [] := by
  by_cases h : lane = L
  · subst h
    induction disp with
    | nil => simp [keyedIds]
    | cons e rest ih => simpa [keyedIds, List.filterMap_cons] using ih
  · induction disp with
    | nil => simp [keyedIds]
    | cons e rest ih =>
        have hstep : keyedIds ((e :: rest).map (fun e => (lane, e.id))) L
            = keyedIds (rest.map (fun e => (lane, e.id))) L := by
          simp [keyedIds, List.filterMap_cons, h]
        rw [hstep, ih]
        simp [h]

theorem pumpedLaneState_le (st : LaneState) (h : st.active ≤ st.concurrency) :
    (pumpedLaneState st).active ≤ (pumpedLaneState st).concurrency := by
  simp only [pumpedLaneState]
  omega

theorem allLE_pumpLane (s : QState) (lane : String) (h : AllLE s) : AllLE (pumpLane s lane) := by
  intro l'
  by_cases hl : l' = lane
  · subst hl
    rw [getLaneState_pumpLane_self]
    exact pumpedLaneState_le _ (h l')
  · rw [getLaneState_pumpLane_other _ _ _ hl]
    exact h l'

theorem allLE_foldl_pump (ks : List String) (s : QState) (h : AllLE s) :
    AllLE (ks.foldl pumpLane s) := by
  induction ks generalizing s with
  | nil => exact h
  | cons k rest ih => exact ih _ (allLE_pumpLane s k h)

theorem allLE_of_lanes_update (s s₁ : QState) (lane : String) (v : LaneState)
    (heq : s₁.lanes = lanesUpdate s.lanes lane v)
    (hv : v.active ≤ v.concurrency) (h : AllLE s) : AllLE s₁ := by
  intro l'
  unfold getLaneState
  rw [heq]
  by_cases hl : l' = lane
  · subst hl
    rw [lanesLookup_update_self]
    exact hv
  · rw [lanesLookup_update_other _ _ _ _ hl]
    exact h l'

theorem allLE_settleTask (s : QState) (id : Nat) (out : Outcome) (h : AllLE s) :
    AllLE (settleTask s id out) := by
  unfold settleTask
  cases hfind : s.running.find? (fun r => r.id == id) with
  | none => exact h
  | some r =>
      simp only []
      cases hlk : lanesLookup s.lanes r.lane with
      | none => exact h
      | some st =>
          by_cases hgen : r.generation = st.generation
          · simp only [hgen, if_pos rfl]
            refine allLE_pumpLane _ _ ?_
            refine allLE_of_lanes_update s _ r.lane _ rfl ?_ h
            have hst : getLaneState s r.lane = st := by
              simp [getLaneState, hlk]
            have := h r.lane
            rw [hst] at this
            simpa using Nat.le_trans (Nat.sub_le _ _) this
          · simp only [if_neg hgen]
            exact h

theorem allLE_applyOp (s : QState) (op : Op) (h : AllLE s) (hg : lowerGuard s op = true) :
    AllLE (applyOp s op) := by
  cases op with
  | enqueue lane w =>
      simp only [applyOp, enqueueCommandInLane]
      refine allLE_pumpLane _ lane ?_
      refine allLE_of_lanes_update s _ lane _ rfl ?_ h
      exact h lane
  | settleOk id => exact allLE_settleTask s id _ h
  | settleErr id => exact allLE_settleTask s id _ h
  | clearLane lane =>
      simp only [applyOp, clearCommandLane]
      cases hlk : lanesLookup s.lanes lane with
      | none => exact h
      | some st =>
          simp only []
          refine allLE_of_lanes_update s _ lane _ rfl ?_ h
          have hst : getLaneState s lane = st := by simp [getLaneState, hlk]
          have := h lane
          rw [hst] at this
          simpa using this
  | reset =>
      simp only [applyOp, resetAllLanes]
      refine allLE_foldl_pump _ _ ?_
      intro l'
      unfold getLaneState
      simp only [lanesLookup_map]
      cases lanesLookup s.lanes l' with
      | none => simp [defaultLane]
      | some st => simp [resetLane]
  | setConcurrency lane n =>
      simp only [applyOp, setCommandLaneConcurrency]
      by_cases hn : n = 0
      · simp [hn]; exact h
      · simp only [if_neg hn]
        refine allLE_pumpLane _ lane ?_
        refine allLE_of_lanes_update s _ lane _ rfl ?_ h
        simp only [lowerGuard, Bool.or_eq_true, beq_iff_eq, decide_eq_true_eq] at hg
        rcases hg with hg | hg
        · exact absurd hg hn
        · simpa using hg
  | tick ms => exact h

theorem allLE_run (ops : List Op) : ∀ s, AllLE s → noUnsafeLower s ops = true →
    AllLE (ops.foldl applyOp s) := by
  induction ops with
  | nil => intro s h _; exact h
  | cons op rest ih =>
      intro s h hg
      simp only [noUnsafeLower, Bool.and_eq_true] at hg
      exact ih _ (allLE_applyOp s op h hg.1) hg.2

theorem allLE_initState : AllLE initState := by
  intro l
  simp [getLaneState, initState, lanesLookup, defaultLane]

/-- C1: in every state reached by an operation word in which no concurrency
change lowers a lane's ceiling below its active count (the transient
exception the spec allows immediately after a concurrency decrease), every
lane satisfies `0 ≤ active ≤ concurrency`; in particular a lane whose ceiling
is `k` never has more than `k` operations simultaneously active, no matter
how many are enqueued. -/
theorem c1_lane_active_bounded (ops : List Op)
    (h : noUnsafeLower initState ops = true) (lane : String) :
    0 ≤ (getLaneState (runOps ops) lane).active ∧
      (getLaneState (runOps ops) lane).active ≤ (getLaneState (runOps ops) lane).concurrency :=
  ⟨Nat.zero_le _, allLE_run ops initState allLE_initState h lane⟩

/-- Witness for C1: a concurrency-2 lane with four enqueued tasks stays within
its ceiling. -/
theorem c1_lane_active_bounded_witness :
    0 ≤ (getLaneState (runOps [Op.setConcurrency "limited-lane" 2,
        Op.enqueue "limited-lane" none, Op.enqueue "limited-lane" none,
        Op.enqueue "limited-lane" none, Op.enqueue "limited-lane" none]) "limited-lane").active ∧
      (getLaneState (runOps [Op.setConcurrency "limited-lane" 2,
        Op.enqueue "limited-lane" none, Op.enqueue "limited-lane" none,
        Op.enqueue "limited-lane" none, Op.enqueue "limited-lane" none]) "limited-lane").active ≤
      (getLaneState (runOps [Op.setConcurrency "limited-lane" 2,
        Op.enqueue "limited-lane" none, Op.enqueue "limited-lane" none,
        Op.enqueue "limited-lane" none, Op.enqueue "limited-lane" none]) "limited-lane").concurrency :=
  c1_lane_active_bounded [Op.setConcurrency "limited-lane" 2,
    Op.enqueue "limited-lane" none, Op.enqueue "limited-lane" none,
    Op.enqueue "limited-lane" none, Op.enqueue "limited-lane" none] (by decide) "limited-lane"

theorem all_congr_of_agree (l : List Nat) (F G : Nat → Bool) (h : ∀ x ∈ l, F x = G x) :
    l.all F = l.all G := by
  induction l with
  | nil => rfl
  | cons x xs ih =>
      simp only [List.all_cons, h x (by simp)]
      rw [ih (fun y hy => h y (by simp [hy]))]

/-- C9: `setCommandLaneConcurrency` with a positive ceiling stores it and
immediately pumps the lane (a raised ceiling admits pending work without
waiting for a completion), leaving other lanes alone; with the invalid
ceiling zero it reports a configuration error synchronously and returns the
state entirely unchanged. -/
theorem c9_set_concurrency (s : QState) (lane l' : String) (n : Nat)
    (hn : n ≠ 0) (hl : l' ≠ lane) :
    (setCommandLaneConcurrency s lane n).2 = none
    ∧ getLaneState (setCommandLaneConcurrency s lane n).1 lane
        = pumpedLaneState { getLaneState s lane with concurrency := n }
    ∧ (getLaneState (setCommandLaneConcurrency s lane n).1 lane).concurrency = n
    ∧ getLaneState (setCommandLaneConcurrency s lane n).1 l' = getLaneState s l'
    ∧ (setCommandLaneConcurrency s lane 0).1 = s
    ∧ (setCommandLaneConcurrency s lane 0).2 = some ConfigError.invalidConcurrency := by
  refine ⟨?_, ?_, ?_, ?_, ?_, ?_⟩
  · simp [setCommandLaneConcurrency, hn]
  · simp only [setCommandLaneConcurrency, if_neg hn]
    rw [getLaneState_pumpLane_self]
    congr 1
    simp [getLaneState, lanesLookup_update_self]
  · simp only [setCommandLaneConcurrency, if_neg hn]
    rw [getLaneState_pumpLane_self]
    simp [getLaneState, lanesLookup_update_self, pumpedLaneState]
  · simp only [setCommandLaneConcurrency, if_neg hn]
    rw [getLaneState_pumpLane_other _ _ _ hl]
    simp [getLaneState, lanesLookup_update_other _ _ _ _ hl]
  · simp [setCommandLaneConcurrency]
  · simp [setCommandLaneConcurrency]

/-- Witness for C9: raising a busy lane's ceiling to 2 succeeds and pumps;
a zero ceiling is rejected with the state unchanged. -/
theorem c9_set_concurrency_witness :
    (setCommandLaneConcurrency (runOps [Op.enqueue "x" none]) "x" 2).2 = none
    ∧ getLaneState (setCommandLaneConcurrency (runOps [Op.enqueue "x" none]) "x" 2).1 "x"
        = pumpedLaneState { getLaneState (runOps [Op.enqueue "x" none]) "x" with concurrency := 2 }
    ∧ (getLaneState (setCommandLaneConcurrency (runOps [Op.enqueue "x" none]) "x" 2).1 "x").concurrency = 2
    ∧ getLaneState (setCommandLaneConcurrency (runOps [Op.enqueue "x" none]) "x" 2).1 "y"
        = getLaneState (runOps [Op.enqueue "x" none]) "y"
    ∧ (setCommandLaneConcurrency (runOps [Op.enqueue "x" none]) "x" 0).1 = runOps [Op.enqueue "x" none]
    ∧ (setCommandLaneConcurrency (runOps [Op.enqueue "x" none]) "x" 0).2
        = some ConfigError.invalidConcurrency :=
  c9_set_concurrency (runOps [Op.enqueue "x" none]) "x" "y" 2 (by decide) (by decide)

/-- C4: `clearCommandLane` removes exactly the pending envelopes of the lane,
rejects each removed envelope with the distinct lane-cleared outcome kind (a
different constructor from an operation failure), returns the number removed,
leaves active envelopes and the lane's generation (and every other lane)
untouched. -/
theorem c4_clear_lane (s : QState) (lane l' : String) (st : LaneState)
    (hlk : lanesLookup s.lanes lane = some st) (hl : l' ≠ lane) :
    (clearCommandLane s lane).2 = st.pending.length
    ∧ getLaneState (clearCommandLane s lane).1 lane = { st with pending := [] }
    ∧ (clearCommandLane s lane).1.running = s.running
    ∧ (clearCommandLane s lane).1.settled
        = s.settled ++ st.pending.map
            (fun e => { id := e.id, lane := lane, outcome := Outcome.rejectedLaneCleared })
    ∧ getLaneState (clearCommandLane s lane).1 l' = getLaneState s l'
    ∧ Outcome.rejectedLaneCleared ≠ Outcome.rejectedOpFailure
    ∧ Outcome.rejectedLaneCleared ≠ Outcome.resolvedOk := by
  refine ⟨?_, ?_, ?_, ?_, ?_, by simp, by simp⟩
  · simp [clearCommandLane, hlk]
  · simp [clearCommandLane, hlk, getLaneState, lanesLookup_update_self]
  · simp [clearCommandLane, hlk]
  · simp [clearCommandLane, hlk]
  · simp [clearCommandLane, hlk, getLaneState, lanesLookup_update_other _ _ _ _ hl]

/-- Witness for C4: clearing a lane with one active and two pending envelopes
returns 2, rejects the pending pair with the lane-cleared kind and keeps the
active one in flight. -/
theorem c4_clear_lane_witness :
    (clearCommandLane (runOps [Op.enqueue "c" none, Op.enqueue "c" none, Op.enqueue "c" none]) "c").2
      = (getLaneState (runOps [Op.enqueue "c" none, Op.enqueue "c" none, Op.enqueue "c" none]) "c").pending.length
    ∧ getLaneState (clearCommandLane (runOps [Op.enqueue "c" none, Op.enqueue "c" none, Op.enqueue "c" none]) "c").1 "c"
        = { getLaneState (runOps [Op.enqueue "c" none, Op.enqueue "c" none, Op.enqueue "c" none]) "c" with pending := [] }
    ∧ (clearCommandLane (runOps [Op.enqueue "c" none, Op.enqueue "c" none, Op.enqueue "c" none]) "c").1.running
        = (runOps [Op.enqueue "c" none, Op.enqueue "c" none, Op.enqueue "c" none]).running := by
  have h := c4_clear_lane (runOps [Op.enqueue "c" none, Op.enqueue "c" none, Op.enqueue "c" none])
    "c" "other" (getLaneState (runOps [Op.enqueue "c" none, Op.enqueue "c" none, Op.enqueue "c" none]) "c")
    (by decide) (by decide)
  exact ⟨h.1, h.2.1, h.2.2.1⟩

/-- C5: `waitForActiveTasks` resolves immediately with drained = true on an
empty snapshot (in particular whenever nothing is running at call time);
otherwise it resolves true exactly when every snapshotted outcome settles
strictly before the timeout; and its result depends only on the snapshotted
handles, so envelopes that become active after the snapshot never change or
delay the result. -/
theorem c5_wait_for_active (s : QState) (snapshot : List Nat) (f g : Nat → Option Nat)
    (timeoutMs : Nat) (hs : s.running = []) (hagree : ∀ id ∈ snapshot, f id = g id) :
    waitForActiveTasks (activeSnapshot s) f timeoutMs = true
    ∧ (waitForActiveTasks snapshot f timeoutMs = true ↔
        ∀ id ∈ snapshot, ∃ t, f id = some t ∧ t < timeoutMs)
    ∧ waitForActiveTasks snapshot f timeoutMs = waitForActiveTasks snapshot g timeoutMs := by
  refine ⟨by simp [waitForActiveTasks, activeSnapshot, hs], ?_, ?_⟩
  · simp only [waitForActiveTasks, List.all_eq_true]
    constructor
    · intro h id hid
      have hh := h id hid
      cases hf : f id with
      | none => rw [hf] at hh; simp at hh
      | some t =>
          rw [hf] at hh
          simp only [decide_eq_true_eq] at hh
          exact ⟨t, rfl, hh⟩
    · intro h id hid
      obtain ⟨t, hft, hlt⟩ := h id hid
      rw [hft]
      simpa using hlt
  · exact all_congr_of_agree snapshot _ _ (fun id hid => by rw [hagree id hid])

/-- Witness for C5: a settled-early snapshot drains; one handle past the
timeout does not. -/
theorem c5_wait_for_active_witness :
    waitForActiveTasks (activeSnapshot initState) (fun i => if i = 3 then some 10 else some 20) 100 = true
    ∧ (waitForActiveTasks [3, 4] (fun i => if i = 3 then some 10 else some 20) 100 = true ↔
        ∀ id ∈ [3, 4], ∃ t, (fun i => if i = 3 then some 10 else some 20) id = some t ∧ t < 100)
    ∧ waitForActiveTasks [3, 4] (fun i => if i = 3 then some 10 else some 20) 100
        = waitForActiveTasks [3, 4] (fun i => if i = 3 then some 10 else some 20) 100 :=
  c5_wait_for_active initState [3, 4] (fun i => if i = 3 then some 10 else some 20)
    (fun i => if i = 3 then some 10 else some 20) 100 (by decide) (fun id _ => rfl)

/-- C7: `getQueueSize` reports active plus pending for exactly the requested
lane (defaulting to "main"), `getTotalQueueSize` is the sum of `getQueueSize`
over every known lane, `getActiveTaskCount` is the sum of the active counts
over every known lane, and enqueue / clear / concurrency updates on one lane
never change another lane's size. -/
theorem c7_size_queries (s : QState) (lane l' : String) (w : Option Nat) (n : Nat)
    (hnd : keysNodup s) (hl : l' ≠ lane) :
    getQueueSizeMain s = getQueueSize s mainLane
    ∧ getQueueSize s lane = (getLaneState s lane).active + (getLaneState s lane).pending.length
    ∧ getTotalQueueSize s = (s.lanes.map (fun p => getQueueSize s p.1)).sum
    ∧ getActiveTaskCount s = (s.lanes.map (fun p => (getLaneState s p.1).active)).sum
    ∧ getQueueSize ((enqueueCommandInLane s lane w).1) l' = getQueueSize s l'
    ∧ getQueueSize ((clearCommandLane s lane).1) l' = getQueueSize s l'
    ∧ getQueueSize ((setCommandLaneConcurrency s lane n).1) l' = getQueueSize s l' := by
  refine ⟨rfl, rfl, ?_, ?_, ?_, ?_, ?_⟩
  · unfold getTotalQueueSize
    congr 1
    refine List.map_congr_left ?_
    intro p hp
    rw [getQueueSize, getLaneState, lanesLookup_of_nodup s.lanes hnd p hp]
    rfl
  · unfold getActiveTaskCount
    congr 1
    refine List.map_congr_left ?_
    intro p hp
    rw [getLaneState, lanesLookup_of_nodup s.lanes hnd p hp]
    rfl
  · simp only [enqueueCommandInLane]
    rw [getQueueSize, getQueueSize, getLaneState_pumpLane_other _ _ _ hl]
    simp [getLaneState, lanesLookup_update_other _ _ _ _ hl]
  · unfold clearCommandLane
    cases hlk : lanesLookup s.lanes lane with
    | none => rfl
    | some st =>
        simp only []
        rw [getQueueSize, getQueueSize]
        simp [getLaneState, lanesLookup_update_other _ _ _ _ hl]
  · unfold setCommandLaneConcurrency
    by_cases hn : n = 0
    · simp [hn]
    · simp only [if_neg hn]
      rw [getQueueSize, getQueueSize, getLaneState_pumpLane_other _ _ _ hl]
      simp [getLaneState, lanesLookup_update_other _ _ _ _ hl]

/-- Witness for C7 at a two-lane state. -/
theorem c7_size_queries_witness :
    getQueueSizeMain (runOps [Op.enqueue "main" none, Op.enqueue "b" none])
      = getQueueSize (runOps [Op.enqueue "main" none, Op.enqueue "b" none]) mainLane
    ∧ getTotalQueueSize (runOps [Op.enqueue "main" none, Op.enqueue "b" none])
      = ((runOps [Op.enqueue "main" none, Op.enqueue "b" none]).lanes.map
          (fun p => getQueueSize (runOps [Op.enqueue "main" none, Op.enqueue "b" none]) p.1)).sum
    ∧ getQueueSize ((enqueueCommandInLane (runOps [Op.enqueue "main" none, Op.enqueue "b" none]) "main" none).1) "b"
      = getQueueSize (runOps [Op.enqueue "main" none, Op.enqueue "b" none]) "b" := by
  have h := c7_size_queries (runOps [Op.enqueue "main" none, Op.enqueue "b" none])
    "main" "b" none 1 (by unfold keysNodup; decide) (by decide)
  exact ⟨h.1, h.2.2.1, h.2.2.2.2.1⟩

theorem matchActive_eq (s : QState) (lane : String) :
    (match lanesLookup s.lanes lane with
     | some w => (fun p : String × LaneState => p.2.active) (lane, w)
     | none => 0) = (getLaneState s lane).active := by
  cases hlk : lanesLookup s.lanes lane with
  | none => simp [getLaneState, hlk, defaultLane]
  | some st => simp [getLaneState, hlk]

theorem activeCount_update (s : QState) (lane : String) (v : LaneState) :
    ((lanesUpdate s.lanes lane v).map (fun p => p.2.active)).sum + (getLaneState s lane).active
      = getActiveTaskCount s + v.active := by
  have h := sum_map_update s.lanes lane v (fun p => p.2.active)
  rw [matchActive_eq] at h
  simpa [getActiveTaskCount] using h

theorem activeCount_pumpLane (s : QState) (lane : String) :
    getActiveTaskCount (pumpLane s lane) + (getLaneState s lane).active
      = getActiveTaskCount s + (pumpedLaneState (getLaneState s lane)).active := by
  cases hlk : lanesLookup s.lanes lane with
  | none =>
      simp [pumpLane, hlk, getLaneState, pumpedLaneState, defaultLane]
  | some st =>
      have hst : getLaneState s lane = st := by simp [getLaneState, hlk]
      simp only [pumpLane, hlk]
      have h := activeCount_update s lane
        { st with active := (pumpGo st.concurrency st.active st.pending).1,
                  pending := (pumpGo st.concurrency st.active st.pending).2.1 }
      rw [hst] at h ⊢
      simp only [getActiveTaskCount] at h ⊢
      simp only [pumpGo_eq] at h ⊢
      simp only [pumpedLaneState]
      omega

/-- C10: when a lane has spare capacity and an empty pending queue, the
dispatch happens inside the enqueue call itself: the returned state already
counts the new envelope as active (not pending), its handle is already in the
active snapshot, and `getActiveTaskCount` / `getQueueSize` reflect it
immediately, before any further operation. -/
theorem c10_sync_dispatch (s : QState) (lane : String) (w : Option Nat)
    (hp : (getLaneState s lane).pending = [])
    (ha : (getLaneState s lane).active < (getLaneState s lane).concurrency) :
    (getLaneState (enqueueCommandInLane s lane w).1 lane).pending = []
    ∧ (getLaneState (enqueueCommandInLane s lane w).1 lane).active
        = (getLaneState s lane).active + 1
    ∧ (enqueueCommandInLane s lane w).2 ∈ activeSnapshot (enqueueCommandInLane s lane w).1
    ∧ getActiveTaskCount (enqueueCommandInLane s lane w).1 = getActiveTaskCount s + 1
    ∧ getQueueSize (enqueueCommandInLane s lane w).1 lane = getQueueSize s lane + 1 := by
  have henv : getLaneState
      { s with
        lanes := lanesUpdate s.lanes lane
          { getLaneState s lane with
            pending := (getLaneState s lane).pending ++ [mkEnvelope s lane w] },
        enqueueLog := s.enqueueLog ++ [(lane, (mkEnvelope s lane w).id)],
        nextId := s.nextId + 1 } lane
      = { getLaneState s lane with pending := [mkEnvelope s lane w] } := by
    unfold getLaneState at hp ⊢
    simp [lanesLookup_update_self, hp]
  have hm : min ((getLaneState s lane).concurrency - (getLaneState s lane).active) 1 = 1 := by
    omega
  refine ⟨?_, ?_, ?_, ?_, ?_⟩
  · simp only [enqueueCommandInLane]
    rw [getLaneState_pumpLane_self, henv]
    simp [pumpedLaneState, hm]
  · simp only [enqueueCommandInLane]
    rw [getLaneState_pumpLane_self, henv]
    simp [pumpedLaneState, hm]
  · simp only [enqueueCommandInLane, activeSnapshot]
    rw [pumpLane_running]
    simp only [dispatchedEnvs, henv]
    simp [hm]
  · simp only [enqueueCommandInLane]
    have hpump := activeCount_pumpLane
      { s with
        lanes := lanesUpdate s.lanes lane
          { getLaneState s lane with
            pending := (getLaneState s lane).pending ++ [mkEnvelope s lane w] },
        enqueueLog := s.enqueueLog ++ [(lane, (mkEnvelope s lane w).id)],
        nextId := s.nextId + 1 } lane
    rw [henv] at hpump
    have hupd := activeCount_update s lane
      { getLaneState s lane with
        pending := (getLaneState s lane).pending ++ [mkEnvelope s lane w] }
    simp only [getActiveTaskCount] at hpump hupd ⊢
    simp only [pumpedLaneState, List.length_singleton] at hpump
    omega
  · simp only [enqueueCommandInLane]
    rw [getQueueSize, getQueueSize, getLaneState_pumpLane_self, henv]
    simp [pumpedLaneState, hm, hp]

/-- Witness for C10: the first enqueue into the idle main lane is active by
the time the call returns. -/
theorem c10_sync_dispatch_witness :
    (getLaneState (enqueueCommandInLane initState "main" none).1 "main").pending = []
    ∧ (getLaneState (enqueueCommandInLane initState "main" none).1 "main").active
        = (getLaneState initState "main").active + 1
    ∧ (enqueueCommandInLane initState "main" none).2
        ∈ activeSnapshot (enqueueCommandInLane initState "main" none).1
    ∧ getActiveTaskCount (enqueueCommandInLane initState "main" none).1
        = getActiveTaskCount initState + 1
    ∧ getQueueSize (enqueueCommandInLane initState "main" none).1 "main"
        = getQueueSize initState "main" + 1 :=
  c10_sync_dispatch initState "main" none (by decide) (by decide)

theorem lanesLookup_foldl_pump_not_mem (ks : List String) (s : QState) (l : String)
    (h : l ∉ ks) : lanesLookup (ks.foldl pumpLane s).lanes l = lanesLookup s.lanes l := by
  induction ks generalizing s with
  | nil => rfl
  | cons k rest ih =>
      have h1 : l ≠ k := fun he => h (he ▸ List.mem_cons_self k rest)
      have h2 : l ∉ rest := fun hm => h (List.mem_cons_of_mem _ hm)
      rw [List.foldl_cons, ih _ h2, pumpLane_lanes]
      simp [h1]

theorem lanesLookup_foldl_pump_mem (ks : List String) (s : QState) (l : String)
    (hmem : l ∈ ks) (hnd : ks.Nodup) :
    lanesLookup (ks.foldl pumpLane s).lanes l = (lanesLookup s.lanes l).map pumpedLaneState := by
  induction ks generalizing s with
  | nil => cases hmem
  | cons k rest ih =>
      rw [List.foldl_cons]
      by_cases hk : l = k
      · subst hk
        have hnot : l ∉ rest := (List.nodup_cons.mp hnd).1
        rw [lanesLookup_foldl_pump_not_mem rest _ _ hnot, pumpLane_lanes]
        simp
      · have hr : l ∈ rest := by
          rcases List.mem_cons.mp hmem with h | h
          · exact absurd h hk
          · exact h
        rw [ih _ hr (List.nodup_cons.mp hnd).2, pumpLane_lanes]
        simp [hk]

theorem foldl_pump_settled (ks : List String) (s : QState) :
    (ks.foldl pumpLane s).settled = s.settled := by
  induction ks generalizing s with
  | nil => rfl
  | cons k rest ih => rw [List.foldl_cons, ih, pumpLane_settled]

theorem mem_keys_of_lookup (l : List (String × LaneState)) (k : String) (v : LaneState)
    (h : lanesLookup l k = some v) : k ∈ l.map Prod.fst := by
  induction l with
  | nil => simp [lanesLookup] at h
  | cons p rest ih =>
      by_cases hk : p.1 = k
      · simp [hk]
      · obtain ⟨k', w⟩ := p
        simp at hk
        simp only [lanesLookup, if_neg hk] at h
        simp [ih h]

theorem reset_keys (s : QState) :
    ((s.lanes.map (fun p => (p.1, resetLane p.2))).map Prod.fst) = s.lanes.map Prod.fst := by
  simp [List.map_map]

theorem reset_lookup (s : QState) (l : String) (hnd : keysNodup s) :
    lanesLookup (resetAllLanes s).lanes l
      = ((lanesLookup s.lanes l).map resetLane).map pumpedLaneState := by
  simp only [resetAllLanes]
  by_cases hmem : l ∈ s.lanes.map Prod.fst
  · rw [lanesLookup_foldl_pump_mem]
    · simp [lanesLookup_map]
    · simpa [reset_keys] using hmem
    · simpa [reset_keys] using hnd
  · rw [lanesLookup_foldl_pump_not_mem]
    · cases hlk : lanesLookup s.lanes l with
      | none => simp [lanesLookup_map, hlk]
      | some st => exact absurd (mem_keys_of_lookup _ _ _ hlk) hmem
    · simpa [reset_keys] using hmem

theorem reset_settled (s : QState) : (resetAllLanes s).settled = s.settled := by
  simp only [resetAllLanes]
  rw [foldl_pump_settled]

/-- C3: `resetAllLanes` gives every known lane `active = 0` and `generation`
bumped by exactly one and pumps it, so the untouched (neither removed nor
rejected) pending envelopes are dispatched immediately up to the full
ceiling with no new enqueue; a task dispatched before the reset still
delivers its outcome when it settles but performs no bookkeeping (no lane
state changes at all); and resetting when no lane has ever been created is a
no-op. -/
theorem c3_reset_all_lanes (s : QState) (l : String) (st str : LaneState) (id : Nat)
    (out : Outcome) (r : RunningTask) (hnd : keysNodup s)
    (hlk : lanesLookup s.lanes l = some st)
    (hr : (resetAllLanes s).running.find? (fun q => q.id == id) = some r)
    (hlkr : lanesLookup s.lanes r.lane = some str)
    (hgen : r.generation = str.generation) :
    getLaneState (resetAllLanes s) l = pumpedLaneState (resetLane st)
    ∧ (getLaneState (resetAllLanes s) l).generation = st.generation + 1
    ∧ (getLaneState (resetAllLanes s) l).active = min st.concurrency st.pending.length
    ∧ (getLaneState (resetAllLanes s) l).pending
        = st.pending.drop (min st.concurrency st.pending.length)
    ∧ (resetAllLanes s).settled = s.settled
    ∧ (settleTask (resetAllLanes s) id out).settled
        = (resetAllLanes s).settled ++ [{ id := r.id, lane := r.lane, outcome := out }]
    ∧ (∀ l', getLaneState (settleTask (resetAllLanes s) id out) l'
        = getLaneState (resetAllLanes s) l')
    ∧ resetAllLanes initState = initState := by
  have hself : getLaneState (resetAllLanes s) l = pumpedLaneState (resetLane st) := by
    rw [getLaneState, reset_lookup s l hnd, hlk]
    rfl
  have hstale : lanesLookup (resetAllLanes s).lanes r.lane
      = some (pumpedLaneState (resetLane str)) := by
    rw [reset_lookup s r.lane hnd, hlkr]
    rfl
  have hgenne : ¬ r.generation = (pumpedLaneState (resetLane str)).generation := by
    simp [pumpedLaneState, resetLane, hgen]
  refine ⟨hself, ?_, ?_, ?_, reset_settled s, ?_, ?_, ?_⟩
  · rw [hself]; simp [pumpedLaneState, resetLane]
  · rw [hself]; simp [pumpedLaneState, resetLane]
  · rw [hself]; simp [pumpedLaneState, resetLane]
  · simp only [settleTask, hr, hstale, if_neg hgenne]
  · intro l'
    simp only [settleTask, hr, hstale, if_neg hgenne]
    rfl
  · rfl

/-- Witness for C3: a lane with one active and one pending envelope; after
the reset the pending envelope is already dispatched, and the stale task's
settlement delivers its outcome without touching any lane. -/
theorem c3_reset_all_lanes_witness :
    getLaneState (resetAllLanes (runOps [Op.enqueue "r" none, Op.enqueue "r" none])) "r"
      = pumpedLaneState (resetLane (getLaneState (runOps [Op.enqueue "r" none, Op.enqueue "r" none]) "r"))
    ∧ (getLaneState (resetAllLanes (runOps [Op.enqueue "r" none, Op.enqueue "r" none])) "r").generation
      = (getLaneState (runOps [Op.enqueue "r" none, Op.enqueue "r" none]) "r").generation + 1
    ∧ (settleTask (resetAllLanes (runOps [Op.enqueue "r" none, Op.enqueue "r" none])) 0 Outcome.resolvedOk).settled
      = (resetAllLanes (runOps [Op.enqueue "r" none, Op.enqueue "r" none])).settled
        ++ [{ id := 0, lane := "r", outcome := Outcome.resolvedOk }]
    ∧ resetAllLanes initState = initState := by
  have h := c3_reset_all_lanes (runOps [Op.enqueue "r" none, Op.enqueue "r" none]) "r"
    (getLaneState (runOps [Op.enqueue "r" none, Op.enqueue "r" none]) "r")
    (getLaneState (runOps [Op.enqueue "r" none, Op.enqueue "r" none]) "r")
    0 Outcome.resolvedOk { id := 0, lane := "r", generation := 0 }
    (by unfold keysNodup; decide) (by decide) (by decide) (by decide) (by decide)
  exact ⟨h.1, h.2.1, h.2.2.2.2.2.1, h.2.2.2.2.2.2.2⟩

theorem find?_append_of_none {α : Type} (l₁ l₂ : List α) (p : α → Bool)
    (h : ∀ x ∈ l₁, p x = false) : (l₁ ++ l₂).find? p = l₂.find? p := by
  induction l₁ with
  | nil => rfl
  | cons x xs ih =>
      rw [List.cons_append, List.find?_cons, h x (by simp)]
      exact ih (fun y hy => h y (by simp [hy]))

/-- C6: a failing operation's rejection is delivered to its own caller only
(the settled log gains exactly that one failure record), the lane's active
count is still decremented and the lane repumped, other lanes are untouched,
the next queued envelope of the lane is dispatched under the lane's current
generation, and settling it afterwards delivers its own success normally. -/
theorem c6_failure_isolated (s : QState) (id : Nat) (r : RunningTask) (st : LaneState)
    (e : TaskEnvelope) (rest : List TaskEnvelope)
    (hfind : s.running.find? (fun q => q.id == id) = some r)
    (hlk : lanesLookup s.lanes r.lane = some st)
    (hgen : r.generation = st.generation)
    (hpend : st.pending = e :: rest)
    (hcap : st.active - 1 < st.concurrency)
    (hfresh : ∀ q ∈ s.running, q.id ≠ e.id) :
    (settleTask s id Outcome.rejectedOpFailure).settled
        = s.settled ++ [{ id := r.id, lane := r.lane, outcome := Outcome.rejectedOpFailure }]
    ∧ getLaneState (settleTask s id Outcome.rejectedOpFailure) r.lane
        = pumpedLaneState { st with active := st.active - 1 }
    ∧ (getLaneState (settleTask s id Outcome.rejectedOpFailure) r.lane).generation = st.generation
    ∧ (∀ l', l' ≠ r.lane →
        getLaneState (settleTask s id Outcome.rejectedOpFailure) l' = getLaneState s l')
    ∧ ({ id := e.id, lane := r.lane, generation := st.generation } : RunningTask)
        ∈ (settleTask s id Outcome.rejectedOpFailure).running
    ∧ (settleTask (settleTask s id Outcome.rejectedOpFailure) e.id Outcome.resolvedOk).settled
        = (settleTask s id Outcome.rejectedOpFailure).settled
          ++ [{ id := e.id, lane := r.lane, outcome := Outcome.resolvedOk }] := by
  set s2 : QState := { s with
      running := s.running.filter (fun q => q.id != id),
      settled := s.settled ++ [{ id := r.id, lane := r.lane, outcome := Outcome.rejectedOpFailure }],
      lanes := lanesUpdate s.lanes r.lane { st with active := st.active - 1 } } with hs2
  have hmid : getLaneState s2 r.lane = { st with active := st.active - 1 } := by
    rw [hs2]
    simp [getLaneState, lanesLookup_update_self]
  have hsettle : settleTask s id Outcome.rejectedOpFailure = pumpLane s2 r.lane := by
    rw [hs2]
    simp only [settleTask, hfind]
    have hlk' : lanesLookup s.lanes r.lane = some st := hlk
    simp only [hlk', if_pos hgen]
  have hact : (getLaneState s2 r.lane).active = st.active - 1 := by rw [hmid]
  have hconc : (getLaneState s2 r.lane).concurrency = st.concurrency := by rw [hmid]
  have hgn : (getLaneState s2 r.lane).generation = st.generation := by rw [hmid]
  have hpnd : (getLaneState s2 r.lane).pending = e :: rest := by rw [hmid]; exact hpend
  have hrunning2 : s2.running = s.running.filter (fun q => q.id != id) := by rw [hs2]
  have hkpos : 1 ≤ min (st.concurrency - (st.active - 1)) (e :: rest).length := by
    refine le_min (by omega) ?_
    simp
  obtain ⟨k', hk'⟩ : ∃ k',
      min (st.concurrency - (st.active - 1)) (e :: rest).length = k' + 1 :=
    ⟨min (st.concurrency - (st.active - 1)) (e :: rest).length - 1, by omega⟩
  have hrun : (settleTask s id Outcome.rejectedOpFailure).running
      = s.running.filter (fun q => q.id != id)
        ++ (({ id := e.id, lane := r.lane, generation := st.generation } : RunningTask)
            :: (rest.take k').map
                (fun x => { id := x.id, lane := r.lane, generation := st.generation })) := by
    rw [hsettle, pumpLane_running, hrunning2]
    simp only [dispatchedEnvs, hact, hconc, hgn, hpnd]
    rw [hk', List.take_succ_cons]
    simp
  refine ⟨?_, ?_, ?_, ?_, ?_, ?_⟩
  · rw [hsettle, pumpLane_settled, hs2]
  · rw [hsettle, getLaneState_pumpLane_self, hmid]
  · rw [hsettle, getLaneState_pumpLane_self, hmid]
    simp [pumpedLaneState]
  · intro l' hl'
    rw [hsettle, getLaneState_pumpLane_other _ _ _ hl', hs2]
    simp [getLaneState, lanesLookup_update_other _ _ _ _ hl']
  · rw [hrun]
    simp
  · have hfind2 : (settleTask s id Outcome.rejectedOpFailure).running.find?
        (fun q => q.id == e.id)
        = some { id := e.id, lane := r.lane, generation := st.generation } := by
      rw [hrun, find?_append_of_none]
      · simp [List.find?_cons]
      · intro q hq
        have hmem : q ∈ s.running := List.mem_of_mem_filter hq
        simp [hfresh q hmem]
    set X := settleTask s id Outcome.rejectedOpFailure with hX
    simp only [settleTask, hfind2]
    cases hlk2 : lanesLookup X.lanes r.lane with
    | none => rfl
    | some st2 =>
        by_cases hg2 : st.generation = st2.generation
        · simp only [if_pos hg2, pumpLane_settled]
        · simp only [if_neg hg2]

/-- Witness for C6: the active task of a serial lane fails with one envelope
queued behind it; the failure is delivered alone, the queued envelope is
dispatched and then succeeds. -/
theorem c6_failure_isolated_witness :
    (settleTask (runOps [Op.enqueue "e" none, Op.enqueue "e" none]) 0 Outcome.rejectedOpFailure).settled
        = (runOps [Op.enqueue "e" none, Op.enqueue "e" none]).settled
          ++ [{ id := 0, lane := "e", outcome := Outcome.rejectedOpFailure }]
    ∧ ({ id := 1, lane := "e", generation := 0 } : RunningTask)
        ∈ (settleTask (runOps [Op.enqueue "e" none, Op.enqueue "e" none]) 0 Outcome.rejectedOpFailure).running
    ∧ (settleTask (settleTask (runOps [Op.enqueue "e" none, Op.enqueue "e" none]) 0 Outcome.rejectedOpFailure)
          1 Outcome.resolvedOk).settled
        = (settleTask (runOps [Op.enqueue "e" none, Op.enqueue "e" none]) 0 Outcome.rejectedOpFailure).settled
          ++ [{ id := 1, lane := "e", outcome := Outcome.resolvedOk }] := by
  have h := c6_failure_isolated (runOps [Op.enqueue "e" none, Op.enqueue "e" none]) 0
    { id := 0, lane := "e", generation := 0 }
    (getLaneState (runOps [Op.enqueue "e" none, Op.enqueue "e" none]) "e")
    { id := 1, enqueuedAt := 0, aheadCount := 0, warnAfterMs := none } []
    (by decide) (by decide) (by decide) (by decide) (by decide) (by decide)
  exact ⟨h.1, h.2.2.2.2.1, h.2.2.2.2.2⟩

theorem noticeFor_id (n : Nat) (e : TaskEnvelope) (nt : WaitNotice)
    (h : noticeFor n e = some nt) : nt.id = e.id := by
  unfold noticeFor at h
  cases hw : e.warnAfterMs with
  | none => simp only [hw] at h; cases h
  | some w =>
      simp only [hw] at h
      by_cases hle : w ≤ n - e.enqueuedAt
      · rw [if_pos hle] at h
        cases h
        rfl
      · rw [if_neg hle] at h
        cases h

theorem filter_notices_nil (n m : Nat) (t : List TaskEnvelope) (h : ∀ x ∈ t, x.id ≠ m) :
    ((t.filterMap (noticeFor n)).filter (fun nt => nt.id == m)) = [] := by
  induction t with
  | nil => rfl
  | cons x xs ih =>
      rw [List.filterMap_cons]
      cases hx : noticeFor n x with
      | none => exact ih (fun y hy => h y (List.mem_cons_of_mem _ hy))
      | some nt =>
          rw [List.filter_cons]
          have hfalse : (nt.id == m) = false := by
            have hid : nt.id = x.id := noticeFor_id n x nt hx
            simp [hid, h x (List.mem_cons_self x xs)]
          rw [hfalse]
          simp only [Bool.false_eq_true, if_false]
          exact ih (fun y hy => h y (List.mem_cons_of_mem _ hy))

theorem filter_notices_eq (n : Nat) (l : List TaskEnvelope) (e : TaskEnvelope)
    (hmem : e ∈ l) (hnd : (l.map (fun x => x.id)).Nodup) :
    (l.filterMap (noticeFor n)).filter (fun nt => nt.id == e.id) = (noticeFor n e).toList := by
  induction l with
  | nil => cases hmem
  | cons h t ih =>
      have hnd' : (h.id :: t.map (fun x => x.id)).Nodup := by simpa using hnd
      rw [List.filterMap_cons]
      rcases List.mem_cons.mp hmem with he | he
      · subst he
        have hall : ∀ x ∈ t, x.id ≠ e.id := by
          intro x hx hxe
          exact (List.nodup_cons.mp hnd').1 (List.mem_map.mpr ⟨x, hx, hxe⟩)
        cases hx : noticeFor n e with
        | none =>
            rw [filter_notices_nil n e.id t hall]
            rfl
        | some nt =>
            rw [List.filter_cons]
            have hid : nt.id = e.id := noticeFor_id n e nt hx
            have htrue : (nt.id == e.id) = true := by simp [hid]
            rw [htrue]
            simp only [if_true]
            rw [filter_notices_nil n e.id t hall]
            rfl
      · have hne : h.id ≠ e.id := by
          intro hh
          exact (List.nodup_cons.mp hnd').1 (hh ▸ List.mem_map.mpr ⟨e, he, rfl⟩)
        have hndt : (t.map (fun x => x.id)).Nodup := (List.nodup_cons.mp hnd').2
        cases hx : noticeFor n h with
        | none => exact ih he hndt
        | some nt =>
            rw [List.filter_cons]
            have hid : nt.id = h.id := noticeFor_id n h nt hx
            have hfalse : (nt.id == e.id) = false := by simp [hid, hne]
            rw [hfalse]
            simp only [Bool.false_eq_true, if_false]
            exact ih he hndt

theorem dispatched_ids_nodup (s : QState) (lane : String)
    (hnd : ((getLaneState s lane).pending.map (fun x => x.id)).Nodup) :
    ((dispatchedEnvs s lane).map (fun x => x.id)).Nodup := by
  unfold dispatchedEnvs
  rw [List.map_take]
  exact List.Nodup.sublist (List.take_sublist _ _) hnd

/-- C8: the wait diagnostic contract: the pump appends, synchronously at
dispatch, exactly the notices of the envelopes it dispatches; a dispatched
envelope carrying `warnAfterMs` whose wait (dispatch time minus enqueue time)
reaches the threshold produces exactly one `onWait(waitedMs, aheadCount)`
notice with its own waited time and its enqueue-time aheadCount; an envelope
below the threshold or without `warnAfterMs` produces none; and `aheadCount`
is the pending-queue length at enqueue time, not counting active entries (an
envelope enqueued behind only active tasks reports 0). -/
theorem c8_on_wait (s : QState) (lane : String) (w : Option Nat) (e : TaskEnvelope)
    (hmem : e ∈ dispatchedEnvs s lane)
    (hnd : ((getLaneState s lane).pending.map (fun x => x.id)).Nodup) :
    (pumpLane s lane).notices
        = s.notices ++ (dispatchedEnvs s lane).filterMap (noticeFor s.now)
    ∧ (∀ wa, e.warnAfterMs = some wa → wa ≤ s.now - e.enqueuedAt →
        ((dispatchedEnvs s lane).filterMap (noticeFor s.now)).filter (fun nt => nt.id == e.id)
          = [{ id := e.id, waitedMs := s.now - e.enqueuedAt, aheadCount := e.aheadCount }])
    ∧ (∀ wa, e.warnAfterMs = some wa → s.now - e.enqueuedAt < wa →
        ((dispatchedEnvs s lane).filterMap (noticeFor s.now)).filter (fun nt => nt.id == e.id)
          = [])
    ∧ (e.warnAfterMs = none →
        ((dispatchedEnvs s lane).filterMap (noticeFor s.now)).filter (fun nt => nt.id == e.id)
          = [])
    ∧ (mkEnvelope s lane w).aheadCount = (getLaneState s lane).pending.length
    ∧ ((getLaneState s lane).pending = [] → (mkEnvelope s lane w).aheadCount = 0) := by
  have hkey := filter_notices_eq s.now (dispatchedEnvs s lane) e hmem
    (dispatched_ids_nodup s lane hnd)
  refine ⟨pumpLane_notices s lane, ?_, ?_, ?_, rfl, ?_⟩
  · intro wa hwa hle
    rw [hkey]
    unfold noticeFor
    simp only [hwa]
    rw [if_pos hle]
    rfl
  · intro wa hwa hlt
    rw [hkey]
    unfold noticeFor
    simp only [hwa]
    rw [if_neg (by omega)]
    rfl
  · intro hnone
    rw [hkey]
    unfold noticeFor
    simp only [hnone]
    rfl
  · intro hp
    simp [mkEnvelope, hp]

/-- Witness for C8: an envelope that waited 30ms against a 5ms threshold is
dispatched with exactly one notice carrying waitedMs 30 and aheadCount 0, and
a fresh envelope's aheadCount equals the pending-queue length. -/
theorem c8_on_wait_witness :
    ((dispatchedEnvs waitDemoState "w").filterMap (noticeFor waitDemoState.now)).filter
        (fun nt => nt.id == 1)
      = [{ id := 1, waitedMs := 30, aheadCount := 0 }]
    ∧ (mkEnvelope waitDemoState "w" none).aheadCount
      = (getLaneState waitDemoState "w").pending.length := by
  have h := c8_on_wait waitDemoState "w" none
    { id := 1, enqueuedAt := 0, aheadCount := 0, warnAfterMs := some 5 }
    (by decide) (by decide)
  exact ⟨h.2.1 5 rfl (by decide), h.2.2.2.2.1⟩

theorem laneEnqueued_pump (s : QState) (l L : String) :
    laneEnqueued (pumpLane s l) L = laneEnqueued s L := by
  unfold laneEnqueued
  rw [pumpLane_enqueueLog]

theorem laneSettled_pump (s : QState) (l L : String) :
    laneSettled (pumpLane s l) L = laneSettled s L := by
  unfold laneSettled
  rw [pumpLane_settled]

theorem laneDispatched_pump_self (s : QState) (l : String) :
    laneDispatched (pumpLane s l) l
      = laneDispatched s l ++ (dispatchedEnvs s l).map (fun e => e.id) := by
  unfold laneDispatched
  rw [pumpLane_dispatchLog, keyedIds_append, keyedIds_map_const]
  simp

theorem laneDispatched_pump_other (s : QState) (l L : String) (h : l ≠ L) :
    laneDispatched (pumpLane s l) L = laneDispatched s L := by
  unfold laneDispatched
  rw [pumpLane_dispatchLog, keyedIds_append, keyedIds_map_const]
  simp [h]

theorem lanePending_pump_split (s : QState) (l : String) :
    lanePending s l = (dispatchedEnvs s l).map (fun e => e.id) ++ lanePending (pumpLane s l) l := by
  unfold lanePending dispatchedEnvs
  rw [getLaneState_pumpLane_self]
  simp only [pumpedLaneState]
  rw [← List.map_append, List.take_append_drop]

theorem lanePending_pump_other (s : QState) (l L : String) (h : L ≠ l) :
    lanePending (pumpLane s l) L = lanePending s L := by
  unfold lanePending
  rw [getLaneState_pumpLane_other _ _ _ h]

theorem runningTasks_filter_map (d : List TaskEnvelope) (lane L : String) (g : Nat) :
    ((d.map (fun e => ({ id := e.id, lane := lane, generation := g } : RunningTask))).filter
        (fun r => r.lane == L)).map (fun r => r.id)
      = if lane = L then d.map (fun e => e.id) else [] := by
  induction d with
  | nil => simp
  | cons e rest ih =>
      by_cases h : lane = L
      · subst h
        simp at ih
        simp [ih]
      · simp [h] at ih
        simp [h, ih]

theorem laneRunning_pump_self (s : QState) (l : String) :
    laneRunning (pumpLane s l) l = laneRunning s l ++ (dispatchedEnvs s l).map (fun e => e.id) := by
  unfold laneRunning
  rw [pumpLane_running, List.filter_append, List.map_append]
  congr 1
  rw [runningTasks_filter_map]
  simp

theorem laneRunning_pump_other (s : QState) (l L : String) (h : l ≠ L) :
    laneRunning (pumpLane s l) L = laneRunning s L := by
  unfold laneRunning
  rw [pumpLane_running, List.filter_append, List.map_append]
  rw [runningTasks_filter_map]
  simp [h]

theorem laneRunning_mem (s : QState) (L : String) (i : Nat) :
    i ∈ laneRunning s L ↔ ∃ q ∈ s.running, q.lane = L ∧ q.id = i := by
  unfold laneRunning
  simp only [List.mem_map, List.mem_filter, beq_iff_eq]
  constructor
  · rintro ⟨q, ⟨hq, hl⟩, hi⟩
    exact ⟨q, hq, hl, hi⟩
  · rintro ⟨q, hq, hl, hi⟩
    exact ⟨q, ⟨hq, hl⟩, hi⟩

theorem eq_singleton_of_len_le_one {α : Type} (l : List α) (x : α)
    (hlen : l.length ≤ 1) (hmem : x ∈ l) : l = [x] := by
  cases l with
  | nil => cases hmem
  | cons a t =>
      cases t with
      | nil => simp at hmem; rw [hmem]
      | cons b u => simp at hlen

theorem dispatched_sub_pending (s : QState) (l : String) (i : Nat)
    (h : i ∈ (dispatchedEnvs s l).map (fun e => e.id)) : i ∈ lanePending s l := by
  rw [lanePending_pump_split s l]
  exact List.mem_append_left _ h

theorem pendingAfter_sub_pending (s : QState) (l : String) (i : Nat)
    (h : i ∈ lanePending (pumpLane s l) l) : i ∈ lanePending s l := by
  rw [lanePending_pump_split s l]
  exact List.mem_append_right _ h

theorem dispatchedEnvs_length (s : QState) (l : String) :
    (dispatchedEnvs s l).length
      = min ((getLaneState s l).concurrency - (getLaneState s l).active)
          (getLaneState s l).pending.length := by
  unfold dispatchedEnvs
  rw [List.length_take, Nat.min_assoc, Nat.min_self]

theorem active_pump_self (s : QState) (l : String) :
    (getLaneState (pumpLane s l) l).active
      = (getLaneState s l).active + (dispatchedEnvs s l).length := by
  rw [getLaneState_pumpLane_self, dispatchedEnvs_length]
  rfl

theorem conc_pump_self (s : QState) (l : String) :
    (getLaneState (pumpLane s l) l).concurrency = (getLaneState s l).concurrency := by
  rw [getLaneState_pumpLane_self]
  rfl

theorem gen_pump_self (s : QState) (l : String) :
    (getLaneState (pumpLane s l) l).generation = (getLaneState s l).generation := by
  rw [getLaneState_pumpLane_self]
  rfl

theorem serial_pump (L : String) (s : QState) (l : String) (h : SerialInv L s) :
    SerialInv L (pumpLane s l) := by
  obtain ⟨h1, h2, h3, h4, h5, h6, h7, h8, h9, h10⟩ := h
  by_cases hl : l = L
  · subst hl
    have hsplit := lanePending_pump_split s l
    have hRun := laneRunning_pump_self s l
    refine ⟨?_, ?_, ?_, ?_, ?_, ?_, ?_, ?_, ?_, ?_⟩
    · rw [laneEnqueued_pump, laneSettled_pump, hRun, h1, hsplit]
      simp [List.append_assoc]
    · rw [active_pump_self, hRun, List.length_append, List.length_map, h2]
    · rw [conc_pump_self]
      exact h3
    · rw [hRun, List.length_append, List.length_map, dispatchedEnvs_length, h3, h2]
      rcases Nat.le_one_iff_eq_zero_or_eq_one.mp h4 with h0 | h0 <;> rw [h0]
      · simp
      · simp [Nat.zero_min]
    · rw [gen_pump_self]
      exact h5
    · intro q hq hlane
      rw [pumpLane_running] at hq
      rcases List.mem_append.mp hq with hq | hq
      · exact h6 q hq hlane
      · rcases List.mem_map.mp hq with ⟨e, _, rfl⟩
        exact h5
    · intro q hq hlane
      rw [pumpLane_running] at hq
      rcases List.mem_append.mp hq with hq | hq
      · obtain ⟨hR, hP⟩ := h7 q hq hlane
        constructor
        · rw [hRun]
          intro hmem
          rcases List.mem_append.mp hmem with hm | hm
          · exact hR hm
          · exact hP (dispatched_sub_pending s l q.id hm)
        · intro hmem
          exact hP (pendingAfter_sub_pending s l q.id hmem)
      · rcases List.mem_map.mp hq with ⟨e, _, rfl⟩
        exact absurd rfl hlane
    · intro l' hne i hi
      rw [lanePending_pump_other s l l' (by exact fun he => hne (he.trans rfl))] at hi
      obtain ⟨hR, hP⟩ := h8 l' hne i hi
      constructor
      · rw [hRun]
        intro hmem
        rcases List.mem_append.mp hmem with hm | hm
        · exact hR hm
        · exact hP (dispatched_sub_pending s l i hm)
      · intro hmem
        exact hP (pendingAfter_sub_pending s l i hmem)
    · intro q hq
      rw [pumpLane_running] at hq
      rw [pumpLane_nextId]
      rcases List.mem_append.mp hq with hq | hq
      · exact h9 q hq
      · rcases List.mem_map.mp hq with ⟨e, he, rfl⟩
        refine h10 l _ ?_
        exact dispatched_sub_pending s l e.id (List.mem_map_of_mem _ he)
    · intro l' i hi
      rw [pumpLane_nextId]
      by_cases hl' : l' = l
      · subst hl'
        exact h10 l' i (pendingAfter_sub_pending s l' i hi)
      · rw [lanePending_pump_other s l l' hl'] at hi
        exact h10 l' i hi
  · have hLl : L ≠ l := fun he => hl he.symm
    have hgs : getLaneState (pumpLane s l) L = getLaneState s L :=
      getLaneState_pumpLane_other s l L hLl
    have hRun : laneRunning (pumpLane s l) L = laneRunning s L :=
      laneRunning_pump_other s l L hl
    have hPen : lanePending (pumpLane s l) L = lanePending s L :=
      lanePending_pump_other s l L hLl
    refine ⟨?_, ?_, ?_, ?_, ?_, ?_, ?_, ?_, ?_, ?_⟩
    · rw [laneEnqueued_pump, laneSettled_pump, hRun, hPen]
      exact h1
    · rw [hgs, hRun]
      exact h2
    · rw [hgs]
      exact h3
    · rw [hRun]
      exact h4
    · rw [hgs]
      exact h5
    · intro q hq hlane
      rw [pumpLane_running] at hq
      rcases List.mem_append.mp hq with hq | hq
      · exact h6 q hq hlane
      · rcases List.mem_map.mp hq with ⟨e, _, rfl⟩
        exact absurd hlane hl
    · intro q hq hlane
      rw [pumpLane_running] at hq
      rw [hRun, hPen]
      rcases List.mem_append.mp hq with hq | hq
      · exact h7 q hq hlane
      · rcases List.mem_map.mp hq with ⟨e, he, rfl⟩
        exact h8 l hl _ (dispatched_sub_pending s l e.id (List.mem_map_of_mem _ he))
    · intro l' hne i hi
      rw [hRun, hPen]
      by_cases hl' : l' = l
      · subst hl'
        exact h8 l' hne i (pendingAfter_sub_pending s l' i hi)
      · rw [lanePending_pump_other s l l' hl'] at hi
        exact h8 l' hne i hi
    · intro q hq
      rw [pumpLane_running] at hq
      rw [pumpLane_nextId]
      rcases List.mem_append.mp hq with hq | hq
      · exact h9 q hq
      · rcases List.mem_map.mp hq with ⟨e, he, rfl⟩
        exact h10 l _ (dispatched_sub_pending s l e.id (List.mem_map_of_mem _ he))
    · intro l' i hi
      rw [pumpLane_nextId]
      by_cases hl' : l' = l
      · subst hl'
        exact h10 l' i (pendingAfter_sub_pending s l' i hi)
      · rw [lanePending_pump_other s l l' hl'] at hi
        exact h10 l' i hi

theorem fifo_pump (L : String) (s : QState) (l : String) (h : FifoInv L s) :
    FifoInv L (pumpLane s l) := by
  unfold FifoInv at *
  rw [laneEnqueued_pump]
  by_cases hl : l = L
  · subst hl
    rw [laneDispatched_pump_self]
    have hsplit := lanePending_pump_split s l
    rw [h, hsplit]
    simp [List.append_assoc]
  · rw [laneDispatched_pump_other _ _ _ hl, lanePending_pump_other _ _ _ (fun he => hl he.symm)]
    exact h

theorem fifo_foldl_pump (L : String) (ks : List String) (s : QState) (h : FifoInv L s) :
    FifoInv L (ks.foldl pumpLane s) := by
  induction ks generalizing s with
  | nil => exact h
  | cons k rest ih => exact ih _ (fifo_pump L s k h)

theorem fifo_settle (L : String) (s : QState) (id : Nat) (out : Outcome) (h : FifoInv L s) :
    FifoInv L (settleTask s id out) := by
  unfold settleTask
  cases hfind : s.running.find? (fun r => r.id == id) with
  | none => exact h
  | some r =>
      simp only []
      cases hlk : lanesLookup s.lanes r.lane with
      | none => exact h
      | some st =>
          by_cases hgen : r.generation = st.generation
          · simp only [if_pos hgen]
            apply fifo_pump
            unfold FifoInv at h ⊢
            unfold laneEnqueued laneDispatched lanePending getLaneState at h ⊢
            simp only []
            by_cases hL : r.lane = L
            · subst hL
              rw [lanesLookup_update_self]
              rw [hlk] at h
              simpa using h
            · rw [lanesLookup_update_other _ _ _ _ (fun he => hL he.symm)]
              exact h
          · simp only [if_neg hgen]
            exact h

theorem fifo_applyOp (L : String) (s : QState) (op : Op) (h : FifoInv L s)
    (hop : noClearOf L op = true) : FifoInv L (applyOp s op) := by
  cases op with
  | tick ms => exact h
  | settleOk id => exact fifo_settle L s id _ h
  | settleErr id => exact fifo_settle L s id _ h
  | enqueue l w =>
      simp only [applyOp, enqueueCommandInLane]
      apply fifo_pump
      unfold FifoInv at h ⊢
      unfold laneEnqueued laneDispatched lanePending getLaneState at h ⊢
      simp only []
      rw [keyedIds_append, keyedIds_single]
      by_cases hl : l = L
      · subst hl
        rw [lanesLookup_update_self, if_pos rfl]
        simp only [Option.getD_some, List.map_append]
        rw [h]
        simp [mkEnvelope, List.append_assoc]
      · rw [lanesLookup_update_other _ _ _ _ (fun he => hl he.symm), if_neg hl]
        simp [h]
  | clearLane l =>
      have hne : l ≠ L := by simpa [noClearOf] using hop
      simp only [applyOp, clearCommandLane]
      cases hlk : lanesLookup s.lanes l with
      | none => exact h
      | some st =>
          simp only []
          unfold FifoInv at h ⊢
          unfold laneEnqueued laneDispatched lanePending getLaneState at h ⊢
          simp only []
          rw [lanesLookup_update_other _ _ _ _ (fun he => hne he.symm)]
          exact h
  | reset =>
      simp only [applyOp, resetAllLanes]
      apply fifo_foldl_pump
      unfold FifoInv at h ⊢
      unfold laneEnqueued laneDispatched lanePending getLaneState at h ⊢
      simp only [lanesLookup_map]
      cases hlk : lanesLookup s.lanes L with
      | none => rw [hlk] at h; simpa [defaultLane] using h
      | some st => rw [hlk] at h; simpa [resetLane] using h
  | setConcurrency l n =>
      simp only [applyOp, setCommandLaneConcurrency]
      by_cases hn : n = 0
      · simp only [if_pos hn]
        exact h
      · simp only [if_neg hn]
        apply fifo_pump
        unfold FifoInv at h ⊢
        unfold laneEnqueued laneDispatched lanePending getLaneState at h ⊢
        simp only []
        by_cases hl : l = L
        · subst hl
          rw [lanesLookup_update_self]
          simpa using h
        · rw [lanesLookup_update_other _ _ _ _ (fun he => hl he.symm)]
          exact h

theorem fifo_run (L : String) (ops : List Op) : ∀ s, FifoInv L s →
    ops.all (noClearOf L) = true → FifoInv L (ops.foldl applyOp s) := by
  induction ops with
  | nil => intro s h _; exact h
  | cons op rest ih =>
      intro s h hall
      simp only [List.all_cons, Bool.and_eq_true] at hall
      exact ih _ (fifo_applyOp L s op h hall.1) hall.2

theorem fifo_initState (L : String) : FifoInv L initState := by
  unfold FifoInv laneEnqueued laneDispatched lanePending getLaneState initState keyedIds
  simp [lanesLookup, defaultLane]

theorem filter_sub_eq {α : Type} (l : List α) (f p : α → Bool)
    (h : ∀ x ∈ l, p x = true → f x = true) : (l.filter f).filter p = l.filter p := by
  induction l with
  | nil => rfl
  | cons x t ih =>
      have ht : ∀ y ∈ t, p y = true → f y = true := fun y hy => h y (List.mem_cons_of_mem _ hy)
      by_cases hp : p x = true
      · have hf : f x = true := h x (List.mem_cons_self _ _) hp
        simp [List.filter_cons, hf, hp, ih ht]
      · by_cases hf : f x = true
        · simp [List.filter_cons, hf, hp, ih ht]
        · simp [List.filter_cons, hf, hp, ih ht]

theorem settledIds_map_const (pend : List TaskEnvelope) (lane L : String) (o : Outcome) :
    (pend.map (fun e => ({ id := e.id, lane := lane, outcome := o } : SettledRec))).filterMap
        (fun r => if r.lane = L then some r.id else none)
      = if lane = L then pend.map (fun e => e.id) else [] := by
  induction pend with
  | nil => by_cases h : lane = L <;> simp [h]
  | cons e t ih =>
      by_cases h : lane = L
      · subst h
        simp at ih
        simp [List.filterMap_cons, ih]
      · simp [h] at ih
        simp [List.filterMap_cons, h, ih]

theorem mkEnvelope_id (s : QState) (l : String) (w : Option Nat) :
    (mkEnvelope s l w).id = s.nextId := rfl

theorem enqueue_decomp (s : QState) (lane : String) (w : Option Nat) :
    (enqueueCommandInLane s lane w).1 = pumpLane (enqueueMid s lane w) lane := rfl

theorem settleTask_none (s : QState) (id : Nat) (out : Outcome)
    (h : s.running.find? (fun q => q.id == id) = none) : settleTask s id out = s := by
  simp only [settleTask, h]

theorem settleTask_noLane (s : QState) (id : Nat) (r : RunningTask) (out : Outcome)
    (hf : s.running.find? (fun q => q.id == id) = some r)
    (hlk : lanesLookup s.lanes r.lane = none) :
    settleTask s id out = settleFound s id r out := by
  simp only [settleTask, hf, hlk]
  rfl

theorem settleTask_stale (s : QState) (id : Nat) (r : RunningTask) (out : Outcome)
    (st : LaneState) (hf : s.running.find? (fun q => q.id == id) = some r)
    (hlk : lanesLookup s.lanes r.lane = some st)
    (hg : ¬ r.generation = st.generation) :
    settleTask s id out = settleFound s id r out := by
  simp only [settleTask, hf, hlk, if_neg hg]
  rfl

theorem settleTask_book (s : QState) (id : Nat) (r : RunningTask) (out : Outcome)
    (st : LaneState) (hf : s.running.find? (fun q => q.id == id) = some r)
    (hlk : lanesLookup s.lanes r.lane = some st)
    (hg : r.generation = st.generation) :
    settleTask s id out = pumpLane (settleBookMid s id r out st) r.lane := by
  simp only [settleTask, hf, hlk, if_pos hg]
  rfl

theorem clear_decomp_none (s : QState) (lane : String)
    (hlk : lanesLookup s.lanes lane = none) : (clearCommandLane s lane).1 = s := by
  simp only [clearCommandLane, hlk]

theorem clear_decomp_some (s : QState) (lane : String) (st : LaneState)
    (hlk : lanesLookup s.lanes lane = some st) :
    (clearCommandLane s lane).1 = clearMid s lane st := by
  simp only [clearCommandLane, hlk]
  rfl

theorem setConc_decomp_zero (s : QState) (lane : String) :
    (setCommandLaneConcurrency s lane 0).1 = s := by
  simp [setCommandLaneConcurrency]

theorem setConc_decomp_pos (s : QState) (lane : String) (n : Nat) (hn : n ≠ 0) :
    (setCommandLaneConcurrency s lane n).1 = pumpLane (setConcMid s lane n) lane := by
  simp only [setCommandLaneConcurrency, if_neg hn]
  rfl

theorem laneEnqueued_enqueueMid (s : QState) (l : String) (w : Option Nat) (L : String) :
    laneEnqueued (enqueueMid s l w) L
      = laneEnqueued s L ++ (if l = L then [s.nextId] else []) := by
  simp only [laneEnqueued, enqueueMid]
  rw [keyedIds_append, keyedIds_single]
  rfl

theorem laneSettled_enqueueMid (s : QState) (l : String) (w : Option Nat) (L : String) :
    laneSettled (enqueueMid s l w) L = laneSettled s L := rfl

theorem laneRunning_enqueueMid (s : QState) (l : String) (w : Option Nat) (L : String) :
    laneRunning (enqueueMid s l w) L = laneRunning s L := rfl

theorem lanePending_enqueueMid_self (s : QState) (l : String) (w : Option Nat) :
    lanePending (enqueueMid s l w) l = lanePending s l ++ [s.nextId] := by
  simp only [lanePending, enqueueMid, getLaneState]
  rw [lanesLookup_update_self]
  simp [mkEnvelope]

theorem getLaneState_enqueueMid_self (s : QState) (l : String) (w : Option Nat) :
    getLaneState (enqueueMid s l w) l
      = { getLaneState s l with
          pending := (getLaneState s l).pending ++ [mkEnvelope s l w] } := by
  simp only [enqueueMid, getLaneState]
  rw [lanesLookup_update_self]
  rfl

theorem getLaneState_enqueueMid_other (s : QState) (l : String) (w : Option Nat) (L : String)
    (h : L ≠ l) : getLaneState (enqueueMid s l w) L = getLaneState s L := by
  simp only [enqueueMid, getLaneState]
  rw [lanesLookup_update_other _ _ _ _ h]

theorem lanePending_enqueueMid_other (s : QState) (l : String) (w : Option Nat) (L : String)
    (h : L ≠ l) : lanePending (enqueueMid s l w) L = lanePending s L := by
  unfold lanePending
  rw [getLaneState_enqueueMid_other _ _ _ _ h]

theorem settleFound_laneRunning (s : QState) (id : Nat) (r : RunningTask) (out : Outcome)
    (L : String) :
    laneRunning (settleFound s id r out) L
      = ((s.running.filter (fun q => q.id != id)).filter (fun q => q.lane == L)).map
          (fun q => q.id) := rfl

theorem settleFound_laneSettled (s : QState) (id : Nat) (r : RunningTask) (out : Outcome)
    (L : String) :
    laneSettled (settleFound s id r out) L
      = laneSettled s L ++ (if r.lane = L then [r.id] else []) := by
  simp only [laneSettled, settleFound]
  rw [List.filterMap_append]
  by_cases h : r.lane = L <;> simp [h]

theorem settleFound_laneEnqueued (s : QState) (id : Nat) (r : RunningTask) (out : Outcome)
    (L : String) : laneEnqueued (settleFound s id r out) L = laneEnqueued s L := rfl

theorem settleFound_lanePending (s : QState) (id : Nat) (r : RunningTask) (out : Outcome)
    (L : String) : lanePending (settleFound s id r out) L = lanePending s L := rfl

theorem settleFound_getLaneState (s : QState) (id : Nat) (r : RunningTask) (out : Outcome)
    (L : String) : getLaneState (settleFound s id r out) L = getLaneState s L := rfl

theorem settleBookMid_laneRunning (s : QState) (id : Nat) (r : RunningTask) (out : Outcome)
    (st : LaneState) (L : String) :
    laneRunning (settleBookMid s id r out st) L = laneRunning (settleFound s id r out) L := rfl

theorem settleBookMid_laneSettled (s : QState) (id : Nat) (r : RunningTask) (out : Outcome)
    (st : LaneState) (L : String) :
    laneSettled (settleBookMid s id r out st) L = laneSettled (settleFound s id r out) L := rfl

theorem settleBookMid_laneEnqueued (s : QState) (id : Nat) (r : RunningTask) (out : Outcome)
    (st : LaneState) (L : String) :
    laneEnqueued (settleBookMid s id r out st) L = laneEnqueued s L := rfl

theorem settleBookMid_getLaneState_self (s : QState) (id : Nat) (r : RunningTask)
    (out : Outcome) (st : LaneState) :
    getLaneState (settleBookMid s id r out st) r.lane = { st with active := st.active - 1 } := by
  simp only [settleBookMid, settleFound, getLaneState]
  rw [lanesLookup_update_self]
  rfl

theorem settleBookMid_getLaneState_other (s : QState) (id : Nat) (r : RunningTask)
    (out : Outcome) (st : LaneState) (L : String) (h : L ≠ r.lane) :
    getLaneState (settleBookMid s id r out st) L = getLaneState s L := by
  simp only [settleBookMid, settleFound, getLaneState]
  rw [lanesLookup_update_other _ _ _ _ h]

theorem settleBookMid_lanePending_self (s : QState) (id : Nat) (r : RunningTask)
    (out : Outcome) (st : LaneState) :
    lanePending (settleBookMid s id r out st) r.lane = st.pending.map (fun e => e.id) := by
  unfold lanePending
  rw [settleBookMid_getLaneState_self]

theorem settleBookMid_lanePending_other (s : QState) (id : Nat) (r : RunningTask)
    (out : Outcome) (st : LaneState) (L : String) (h : L ≠ r.lane) :
    lanePending (settleBookMid s id r out st) L = lanePending s L := by
  unfold lanePending
  rw [settleBookMid_getLaneState_other _ _ _ _ _ _ h]

theorem clearMid_laneSettled (s : QState) (l : String) (st : LaneState) (L : String) :
    laneSettled (clearMid s l st) L
      = laneSettled s L ++ (if l = L then st.pending.map (fun e => e.id) else []) := by
  simp only [laneSettled, clearMid]
  rw [List.filterMap_append, settledIds_map_const]

theorem clearMid_laneEnqueued (s : QState) (l : String) (st : LaneState) (L : String) :
    laneEnqueued (clearMid s l st) L = laneEnqueued s L := rfl

theorem clearMid_laneRunning (s : QState) (l : String) (st : LaneState) (L : String) :
    laneRunning (clearMid s l st) L = laneRunning s L := rfl

theorem clearMid_getLaneState_self (s : QState) (l : String) (st : LaneState) :
    getLaneState (clearMid s l st) l = { st with pending := [] } := by
  simp only [clearMid, getLaneState]
  rw [lanesLookup_update_self]
  rfl

theorem clearMid_getLaneState_other (s : QState) (l : String) (st : LaneState) (L : String)
    (h : L ≠ l) : getLaneState (clearMid s l st) L = getLaneState s L := by
  simp only [clearMid, getLaneState]
  rw [lanesLookup_update_other _ _ _ _ h]

theorem clearMid_lanePending_other (s : QState) (l : String) (st : LaneState) (L : String)
    (h : L ≠ l) : lanePending (clearMid s l st) L = lanePending s L := by
  unfold lanePending
  rw [clearMid_getLaneState_other _ _ _ _ h]

theorem setConcMid_getLaneState_self (s : QState) (l : String) (n : Nat) :
    getLaneState (setConcMid s l n) l = { getLaneState s l with concurrency := n } := by
  simp only [setConcMid, getLaneState]
  rw [lanesLookup_update_self]
  rfl

theorem setConcMid_getLaneState_other (s : QState) (l : String) (n : Nat) (L : String)
    (h : L ≠ l) : getLaneState (setConcMid s l n) L = getLaneState s L := by
  simp only [setConcMid, getLaneState]
  rw [lanesLookup_update_other _ _ _ _ h]

theorem setConcMid_lanePending (s : QState) (l : String) (n : Nat) (L : String) :
    lanePending (setConcMid s l n) L = lanePending s L := by
  unfold lanePending
  by_cases h : L = l
  · subst h
    rw [setConcMid_getLaneState_self]
  · rw [setConcMid_getLaneState_other _ _ _ _ h]

theorem setConcMid_laneEnqueued (s : QState) (l : String) (n : Nat) (L : String) :
    laneEnqueued (setConcMid s l n) L = laneEnqueued s L := rfl

theorem setConcMid_laneSettled (s : QState) (l : String) (n : Nat) (L : String) :
    laneSettled (setConcMid s l n) L = laneSettled s L := rfl

theorem setConcMid_laneRunning (s : QState) (l : String) (n : Nat) (L : String) :
    laneRunning (setConcMid s l n) L = laneRunning s L := rfl

theorem clearMid_lanePending_self (s : QState) (l : String) (st : LaneState) :
    lanePending (clearMid s l st) l = [] := by
  unfold lanePending
  rw [clearMid_getLaneState_self]
  rfl

theorem serial_settle (L : String) (s : QState) (id : Nat) (out : Outcome)
    (h : SerialInv L s) : SerialInv L (settleTask s id out) := by
  obtain ⟨h1, h2, h3, h4, h5, h6, h7, h8, h9, h10⟩ := h
  cases hfind : s.running.find? (fun q => q.id == id) with
  | none =>
      rw [settleTask_none s id out hfind]
      exact ⟨h1, h2, h3, h4, h5, h6, h7, h8, h9, h10⟩
  | some r =>
      have hrmem : r ∈ s.running := List.mem_of_find?_eq_some hfind
      have hrid : r.id = id := by
        have := List.find?_some hfind
        simpa using this
      by_cases hL : r.lane = L
      · subst hL
        have hRid : r.id ∈ laneRunning s r.lane :=
          (laneRunning_mem s r.lane r.id).mpr ⟨r, hrmem, rfl, rfl⟩
        have hRsing : laneRunning s r.lane = [r.id] :=
          eq_singleton_of_len_le_one _ _ h4 hRid
        have hR1 : laneRunning (settleFound s id r out) r.lane = [] := by
          rw [settleFound_laneRunning, List.eq_nil_iff_forall_not_mem]
          intro i hi
          obtain ⟨q, hq, hqi⟩ := List.mem_map.mp hi
          obtain ⟨hq1, hq2⟩ := List.mem_filter.mp hq
          obtain ⟨hq0, hqne⟩ := List.mem_filter.mp hq1
          have hql : q.lane = r.lane := by simpa using hq2
          have hmem : q.id ∈ laneRunning s r.lane :=
            (laneRunning_mem s r.lane q.id).mpr ⟨q, hq0, hql, rfl⟩
          rw [hRsing] at hmem
          simp only [List.mem_singleton] at hmem
          rw [hmem, hrid] at hqne
          simp at hqne
        cases hlk : lanesLookup s.lanes r.lane with
        | none =>
            exfalso
            have hgs : getLaneState s r.lane = defaultLane := by
              unfold getLaneState
              rw [hlk]
              rfl
            rw [hgs, hRsing] at h2
            simp [defaultLane] at h2
        | some st =>
            have hgs : getLaneState s r.lane = st := by
              unfold getLaneState
              rw [hlk]
              rfl
            have hg1 : r.generation = 0 := h6 r hrmem rfl
            have hg2 : st.generation = 0 := by
              rw [← hgs]
              exact h5
            rw [settleTask_book s id r out st hfind hlk (by rw [hg1, hg2])]
            apply serial_pump
            have hactive : st.active = 1 := by
              have h2' := h2
              rw [hgs, hRsing] at h2'
              simpa using h2'
            have hP : lanePending s r.lane = st.pending.map (fun e => e.id) := by
              unfold lanePending
              rw [hgs]
            refine ⟨?_, ?_, ?_, ?_, ?_, ?_, ?_, ?_, ?_, ?_⟩
            · rw [settleBookMid_laneEnqueued, settleBookMid_laneSettled,
                settleBookMid_laneRunning, hR1, settleFound_laneSettled,
                settleBookMid_lanePending_self, if_pos rfl, ← hP, h1, hRsing]
              simp [List.append_assoc]
            · rw [settleBookMid_getLaneState_self, settleBookMid_laneRunning, hR1]
              simp [hactive]
            · rw [settleBookMid_getLaneState_self]
              have h3' := h3
              rw [hgs] at h3'
              simpa using h3'
            · rw [settleBookMid_laneRunning, hR1]
              simp
            · rw [settleBookMid_getLaneState_self]
              simpa using hg2
            · intro q hq hql
              exact h6 q (List.mem_of_mem_filter hq) hql
            · intro q hq hql
              obtain ⟨hR, hPm⟩ := h7 q (List.mem_of_mem_filter hq) hql
              rw [settleBookMid_laneRunning, hR1, settleBookMid_lanePending_self, ← hP]
              exact ⟨by simp, hPm⟩
            · intro l' hne i hi
              rw [settleBookMid_lanePending_other _ _ _ _ _ _ hne] at hi
              obtain ⟨hR, hPm⟩ := h8 l' hne i hi
              rw [settleBookMid_laneRunning, hR1, settleBookMid_lanePending_self, ← hP]
              exact ⟨by simp, hPm⟩
            · intro q hq
              exact h9 q (List.mem_of_mem_filter hq)
            · intro l' i hi
              by_cases hl' : l' = r.lane
              · subst hl'
                rw [settleBookMid_lanePending_self, ← hP] at hi
                exact h10 r.lane i hi
              · rw [settleBookMid_lanePending_other _ _ _ _ _ _ hl'] at hi
                exact h10 l' i hi
      · have hkeep : laneRunning (settleFound s id r out) L = laneRunning s L := by
          rw [settleFound_laneRunning]
          unfold laneRunning
          congr 1
          apply filter_sub_eq
          intro q hq hpl
          have hql : q.lane = L := by simpa using hpl
          have hqid : q.id ≠ id := by
            intro he
            have hmm : r.id ∈ laneRunning s L :=
              (laneRunning_mem s L r.id).mpr ⟨q, hq, hql, by rw [he, hrid]⟩
            exact (h7 r hrmem hL).1 hmm
          simpa using hqid
        have hSkeep : laneSettled (settleFound s id r out) L = laneSettled s L := by
          rw [settleFound_laneSettled, if_neg hL]
          simp
        have hsf : SerialInv L (settleFound s id r out) := by
          refine ⟨?_, ?_, ?_, ?_, ?_, ?_, ?_, ?_, ?_, ?_⟩
          · rw [settleFound_laneEnqueued, hSkeep, hkeep, settleFound_lanePending]
            exact h1
          · rw [settleFound_getLaneState, hkeep]
            exact h2
          · rw [settleFound_getLaneState]
            exact h3
          · rw [hkeep]
            exact h4
          · rw [settleFound_getLaneState]
            exact h5
          · intro q hq hql
            exact h6 q (List.mem_of_mem_filter hq) hql
          · intro q hq hql
            rw [hkeep, settleFound_lanePending]
            exact h7 q (List.mem_of_mem_filter hq) hql
          · intro l' hne i hi
            rw [settleFound_lanePending] at hi
            rw [hkeep, settleFound_lanePending]
            exact h8 l' hne i hi
          · intro q hq
            exact h9 q (List.mem_of_mem_filter hq)
          · intro l' i hi
            rw [settleFound_lanePending] at hi
            exact h10 l' i hi
        cases hlk : lanesLookup s.lanes r.lane with
        | none =>
            rw [settleTask_noLane s id r out hfind hlk]
            exact hsf
        | some st =>
            by_cases hg : r.generation = st.generation
            · rw [settleTask_book s id r out st hfind hlk hg]
              apply serial_pump
              obtain ⟨g1, g2, g3, g4, g5, g6, g7, g8, g9, g10⟩ := hsf
              have hLne : L ≠ r.lane := fun he => hL he.symm
              have hgs : getLaneState s r.lane = st := by
                unfold getLaneState
                rw [hlk]
                rfl
              have hPr : lanePending s r.lane = st.pending.map (fun e => e.id) := by
                unfold lanePending
                rw [hgs]
              refine ⟨?_, ?_, ?_, ?_, ?_, ?_, ?_, ?_, ?_, ?_⟩
              · rw [settleBookMid_laneEnqueued, settleBookMid_laneSettled,
                  settleBookMid_laneRunning, settleBookMid_lanePending_other _ _ _ _ _ _ hLne]
                exact g1
              · rw [settleBookMid_getLaneState_other _ _ _ _ _ _ hLne, settleBookMid_laneRunning]
                exact g2
              · rw [settleBookMid_getLaneState_other _ _ _ _ _ _ hLne]
                exact g3
              · rw [settleBookMid_laneRunning]
                exact g4
              · rw [settleBookMid_getLaneState_other _ _ _ _ _ _ hLne]
                exact g5
              · intro q hq hql
                exact g6 q hq hql
              · intro q hq hql
                rw [settleBookMid_laneRunning, settleBookMid_lanePending_other _ _ _ _ _ _ hLne]
                exact g7 q hq hql
              · intro l' hne i hi
                rw [settleBookMid_laneRunning, settleBookMid_lanePending_other _ _ _ _ _ _ hLne]
                by_cases hl' : l' = r.lane
                · subst hl'
                  rw [settleBookMid_lanePending_self, ← hPr] at hi
                  exact g8 r.lane hne i hi
                · rw [settleBookMid_lanePending_other _ _ _ _ _ _ hl'] at hi
                  exact g8 l' hne i hi
              · intro q hq
                exact g9 q hq
              · intro l' i hi
                by_cases hl' : l' = r.lane
                · subst hl'
                  rw [settleBookMid_lanePending_self, ← hPr] at hi
                  exact g10 r.lane i hi
                · rw [settleBookMid_lanePending_other _ _ _ _ _ _ hl'] at hi
                  exact g10 l' i hi
            · rw [settleTask_stale s id r out st hfind hlk hg]
              exact hsf

theorem serial_applyOp (L : String) (s : QState) (op : Op) (h : SerialInv L s)
    (hop : serialOk L op = true) : SerialInv L (applyOp s op) := by
  cases op with
  | tick ms => exact h
  | settleOk id => exact serial_settle L s id _ h
  | settleErr id => exact serial_settle L s id _ h
  | reset => simp [serialOk] at hop
  | clearLane l =>
      have hne : l ≠ L := by simpa [serialOk] using hop
      simp only [applyOp]
      cases hlk : lanesLookup s.lanes l with
      | none =>
          rw [clear_decomp_none s l hlk]
          exact h
      | some st =>
          rw [clear_decomp_some s l st hlk]
          obtain ⟨h1, h2, h3, h4, h5, h6, h7, h8, h9, h10⟩ := h
          have hLl : L ≠ l := fun he => hne he.symm
          refine ⟨?_, ?_, ?_, ?_, ?_, ?_, ?_, ?_, ?_, ?_⟩
          · rw [clearMid_laneEnqueued, clearMid_laneSettled, if_neg hne, clearMid_laneRunning,
              clearMid_lanePending_other _ _ _ _ hLl]
            simpa using h1
          · rw [clearMid_getLaneState_other _ _ _ _ hLl, clearMid_laneRunning]
            exact h2
          · rw [clearMid_getLaneState_other _ _ _ _ hLl]
            exact h3
          · rw [clearMid_laneRunning]
            exact h4
          · rw [clearMid_getLaneState_other _ _ _ _ hLl]
            exact h5
          · intro q hq hql
            exact h6 q hq hql
          · intro q hq hql
            rw [clearMid_laneRunning, clearMid_lanePending_other _ _ _ _ hLl]
            exact h7 q hq hql
          · intro l' hne' i hi
            rw [clearMid_laneRunning, clearMid_lanePending_other _ _ _ _ hLl]
            by_cases hl' : l' = l
            · subst hl'
              rw [clearMid_lanePending_self] at hi
              cases hi
            · rw [clearMid_lanePending_other _ _ _ _ hl'] at hi
              exact h8 l' hne' i hi
          · intro q hq
            exact h9 q hq
          · intro l' i hi
            by_cases hl' : l' = l
            · subst hl'
              rw [clearMid_lanePending_self] at hi
              cases hi
            · rw [clearMid_lanePending_other _ _ _ _ hl'] at hi
              exact h10 l' i hi
  | setConcurrency l n =>
      have hne : l ≠ L := by simpa [serialOk] using hop
      simp only [applyOp]
      by_cases hn : n = 0
      · subst hn
        rw [setConc_decomp_zero]
        exact h
      · rw [setConc_decomp_pos s l n hn]
        apply serial_pump
        obtain ⟨h1, h2, h3, h4, h5, h6, h7, h8, h9, h10⟩ := h
        have hLl : L ≠ l := fun he => hne he.symm
        refine ⟨?_, ?_, ?_, ?_, ?_, ?_, ?_, ?_, ?_, ?_⟩
        · rw [setConcMid_laneEnqueued, setConcMid_laneSettled, setConcMid_laneRunning,
            setConcMid_lanePending]
          exact h1
        · rw [setConcMid_getLaneState_other _ _ _ _ hLl, setConcMid_laneRunning]
          exact h2
        · rw [setConcMid_getLaneState_other _ _ _ _ hLl]
          exact h3
        · rw [setConcMid_laneRunning]
          exact h4
        · rw [setConcMid_getLaneState_other _ _ _ _ hLl]
          exact h5
        · intro q hq hql
          exact h6 q hq hql
        · intro q hq hql
          rw [setConcMid_laneRunning, setConcMid_lanePending]
          exact h7 q hq hql
        · intro l' hne' i hi
          rw [setConcMid_laneRunning, setConcMid_lanePending]
          rw [setConcMid_lanePending] at hi
          exact h8 l' hne' i hi
        · intro q hq
          exact h9 q hq
        · intro l' i hi
          rw [setConcMid_lanePending] at hi
          exact h10 l' i hi
  | enqueue l w =>
      simp only [applyOp]
      rw [enqueue_decomp]
      apply serial_pump
      obtain ⟨h1, h2, h3, h4, h5, h6, h7, h8, h9, h10⟩ := h
      by_cases hl : l = L
      · subst hl
        refine ⟨?_, ?_, ?_, ?_, ?_, ?_, ?_, ?_, ?_, ?_⟩
        · rw [laneEnqueued_enqueueMid, if_pos rfl, laneSettled_enqueueMid, laneRunning_enqueueMid,
            lanePending_enqueueMid_self, h1]
          simp [List.append_assoc]
        · rw [getLaneState_enqueueMid_self, laneRunning_enqueueMid]
          simpa using h2
        · rw [getLaneState_enqueueMid_self]
          simpa using h3
        · rw [laneRunning_enqueueMid]
          exact h4
        · rw [getLaneState_enqueueMid_self]
          simpa using h5
        · intro q hq hql
          exact h6 q hq hql
        · intro q hq hql
          rw [laneRunning_enqueueMid, lanePending_enqueueMid_self]
          obtain ⟨hR, hP⟩ := h7 q hq hql
          refine ⟨hR, ?_⟩
          intro hmem
          rcases List.mem_append.mp hmem with hm | hm
          · exact hP hm
          · simp only [List.mem_singleton] at hm
            have := h9 q hq
            omega
        · intro l' hne' i hi
          rw [laneRunning_enqueueMid, lanePending_enqueueMid_self]
          rw [lanePending_enqueueMid_other _ _ _ _ hne'] at hi
          obtain ⟨hR, hP⟩ := h8 l' hne' i hi
          refine ⟨hR, ?_⟩
          intro hmem
          rcases List.mem_append.mp hmem with hm | hm
          · exact hP hm
          · simp only [List.mem_singleton] at hm
            have := h10 l' i hi
            omega
        · intro q hq
          exact Nat.lt_succ_of_lt (h9 q hq)
        · intro l' i hi
          by_cases hl' : l' = l
          · subst hl'
            rw [lanePending_enqueueMid_self] at hi
            rcases List.mem_append.mp hi with hm | hm
            · exact Nat.lt_succ_of_lt (h10 l' i hm)
            · simp only [List.mem_singleton] at hm
              rw [hm]
              exact Nat.lt_succ_self _
          · rw [lanePending_enqueueMid_other _ _ _ _ hl'] at hi
            exact Nat.lt_succ_of_lt (h10 l' i hi)
      · have hLl : L ≠ l := fun he => hl he.symm
        refine ⟨?_, ?_, ?_, ?_, ?_, ?_, ?_, ?_, ?_, ?_⟩
        · rw [laneEnqueued_enqueueMid, if_neg hl, laneSettled_enqueueMid, laneRunning_enqueueMid,
            lanePending_enqueueMid_other _ _ _ _ hLl]
          simpa using h1
        · rw [getLaneState_enqueueMid_other _ _ _ _ hLl, laneRunning_enqueueMid]
          exact h2
        · rw [getLaneState_enqueueMid_other _ _ _ _ hLl]
          exact h3
        · rw [laneRunning_enqueueMid]
          exact h4
        · rw [getLaneState_enqueueMid_other _ _ _ _ hLl]
          exact h5
        · intro q hq hql
          exact h6 q hq hql
        · intro q hq hql
          rw [laneRunning_enqueueMid, lanePending_enqueueMid_other _ _ _ _ hLl]
          exact h7 q hq hql
        · intro l' hne' i hi
          rw [laneRunning_enqueueMid, lanePending_enqueueMid_other _ _ _ _ hLl]
          by_cases hl' : l' = l
          · subst hl'
            rw [lanePending_enqueueMid_self] at hi
            rcases List.mem_append.mp hi with hm | hm
            · exact h8 l' hne' i hm
            · simp only [List.mem_singleton] at hm
              subst hm
              constructor
              · intro hmem
                obtain ⟨q, hq, hql, hqi⟩ := (laneRunning_mem s L s.nextId).mp hmem
                have := h9 q hq
                omega
              · intro hmem
                have := h10 L s.nextId hmem
                omega
          · rw [lanePending_enqueueMid_other _ _ _ _ hl'] at hi
            exact h8 l' hne' i hi
        · intro q hq
          exact Nat.lt_succ_of_lt (h9 q hq)
        · intro l' i hi
          by_cases hl' : l' = l
          · subst hl'
            rw [lanePending_enqueueMid_self] at hi
            rcases List.mem_append.mp hi with hm | hm
            · exact Nat.lt_succ_of_lt (h10 l' i hm)
            · simp only [List.mem_singleton] at hm
              rw [hm]
              exact Nat.lt_succ_self _
          · rw [lanePending_enqueueMid_other _ _ _ _ hl'] at hi
            exact Nat.lt_succ_of_lt (h10 l' i hi)

theorem serial_run (L : String) (ops : List Op) : ∀ s, SerialInv L s →
    ops.all (serialOk L) = true → SerialInv L (ops.foldl applyOp s) := by
  induction ops with
  | nil => intro s h _; exact h
  | cons op rest ih =>
      intro s h hall
      simp only [List.all_cons, Bool.and_eq_true] at hall
      exact ih _ (serial_applyOp L s op h hall.1) hall.2

theorem serial_initState (L : String) : SerialInv L initState := by
  refine ⟨rfl, rfl, rfl, by simp [laneRunning, initState], rfl, ?_, ?_, ?_, ?_, ?_⟩
  · intro q hq _
    exact absurd hq (List.not_mem_nil q)
  · intro q hq _
    exact absurd hq (List.not_mem_nil q)
  · intro l' _ i hi
    exact absurd hi (List.not_mem_nil i)
  · intro q hq
    exact absurd hq (List.not_mem_nil q)
  · intro l' i hi
    exact absurd hi (List.not_mem_nil i)

/-- C2: within a lane, dispatch order is exactly the pending queue's FIFO
insertion order — in every state reached without clearing the lane, the ids
enqueued into the lane are the ids dispatched followed by the still-pending
queue, with no reordering; and a lane left at its default concurrency 1 (no
reset, no clear, no concurrency change) has at most one operation active at
every instant and its operations start and complete in strict submission
order: the submission order equals the settled (completion) order followed by
the in-flight task followed by the pending queue. -/
theorem c2_fifo_and_serial (L : String) (ops : List Op) :
    (ops.all (noClearOf L) = true →
      laneEnqueued (runOps ops) L
        = laneDispatched (runOps ops) L ++ lanePending (runOps ops) L)
    ∧ (ops.all (serialOk L) = true →
      (getLaneState (runOps ops) L).active ≤ 1
      ∧ laneEnqueued (runOps ops) L
          = laneSettled (runOps ops) L ++ laneRunning (runOps ops) L
            ++ lanePending (runOps ops) L) := by
  constructor
  · intro hall
    exact fifo_run L ops initState (fifo_initState L) hall
  · intro hall
    obtain ⟨h1, h2, h3, h4, h5⟩ := serial_run L ops initState (serial_initState L) hall
    refine ⟨?_, h1⟩
    unfold runOps
    rw [h2]
    exact h4

/-- Witness for C2: a serial lane through two enqueues, a completion and an
unrelated lane's traffic keeps FIFO dispatch and the serial regime. -/
theorem c2_fifo_and_serial_witness :
    laneEnqueued (runOps [Op.enqueue "m" none, Op.enqueue "m" none, Op.settleOk 0,
        Op.enqueue "x" none, Op.settleErr 1]) "m"
      = laneDispatched (runOps [Op.enqueue "m" none, Op.enqueue "m" none, Op.settleOk 0,
          Op.enqueue "x" none, Op.settleErr 1]) "m"
        ++ lanePending (runOps [Op.enqueue "m" none, Op.enqueue "m" none, Op.settleOk 0,
            Op.enqueue "x" none, Op.settleErr 1]) "m"
    ∧ (getLaneState (runOps [Op.enqueue "m" none, Op.enqueue "m" none, Op.settleOk 0,
        Op.enqueue "x" none, Op.settleErr 1]) "m").active ≤ 1
    ∧ laneEnqueued (runOps [Op.enqueue "m" none, Op.enqueue "m" none, Op.settleOk 0,
        Op.enqueue "x" none, Op.settleErr 1]) "m"
      = laneSettled (runOps [Op.enqueue "m" none, Op.enqueue "m" none, Op.settleOk 0,
          Op.enqueue "x" none, Op.settleErr 1]) "m"
        ++ laneRunning (runOps [Op.enqueue "m" none, Op.enqueue "m" none, Op.settleOk 0,
            Op.enqueue "x" none, Op.settleErr 1]) "m"
        ++ lanePending (runOps [Op.enqueue "m" none, Op.enqueue "m" none, Op.settleOk 0,
            Op.enqueue "x" none, Op.settleErr 1]) "m" := by
  have h := c2_fifo_and_serial "m" [Op.enqueue "m" none, Op.enqueue "m" none, Op.settleOk 0,
    Op.enqueue "x" none, Op.settleErr 1]
  have h2 := h.2 (by decide)
  exact ⟨h.1 (by decide), h2.1, h2.2⟩

end CommandQueue
